import Mathlib

/-!
Verification of the lifting-diary data-access layer.

Shallow embedding conventions:
* uuid primary keys are modelled as `Nat` (only equality and a total order
  for `ORDER BY workouts.id` are used);
* ISO `yyyy-mm-dd` date strings are modelled as `Nat` day numbers —
  lexicographic comparison of ISO date strings coincides with the
  chronological order, so `=`/`≥` on `Nat` is faithful;
* integer columns (`order`, `set_number`, `reps`) are modelled as `Int`;
* the `numeric` column `weight` is surfaced by the driver as a string and
  is modelled as `Option String`;
* a SQL table is a `List` of rows in store order; a query without
  `ORDER BY` returns rows in store order, and `ORDER BY` is modelled as a
  stable sort on the store order;
* `LEFT JOIN` / `INNER JOIN` are modelled row-by-row with the join
  condition evaluated on each pair, a left-join miss producing one row
  with a `none` right side.
-/

/-- Row of the `workouts` table (schema: `pgTable "workouts"`).
`createdAt` / `updatedAt` timestamps are never read by the code under
verification and are omitted from the projection. -/
structure Workout where
  id : Nat
  userId : String
  name : Option String
  date : Nat
  notes : Option String
  deriving Repr, DecidableEq

/-- Row of the `workout_exercises` junction table. -/
structure WorkoutExercise where
  id : Nat
  workoutId : Nat
  exerciseId : Nat
  order : Int
  deriving Repr, DecidableEq

/-- Row of the `exercises` catalog table. -/
structure Exercise where
  id : Nat
  name : String
  primaryMuscle : Option String
  userId : Option String
  deriving Repr, DecidableEq

/-- Row of the `sets` table. -/
structure SetRow where
  id : Nat
  workoutExerciseId : Nat
  setNumber : Int
  weight : Option String
  reps : Int
  notes : Option String
  deriving Repr, DecidableEq

/-- The relational store: the four tables of the schema. -/
structure Store where
  workouts : List Workout
  workoutExercises : List WorkoutExercise
  exercises : List Exercise
  sets : List SetRow
  deriving Repr, DecidableEq

/-- Projection of a workout row selected by the queries
(`id`, `name`, `date`, `notes`). -/
structure WProj where
  id : Nat
  name : Option String
  date : Nat
  notes : Option String
  deriving Repr, DecidableEq

/-- Projection of a workout-exercise row (`id`, `order`). -/
structure WEProj where
  id : Nat
  order : Int
  deriving Repr, DecidableEq

/-- Projection of an exercise row (`id`, `name`, `primaryMuscle`). -/
structure ExProj where
  id : Nat
  name : String
  primaryMuscle : Option String
  deriving Repr, DecidableEq

/-- Projection of a set row (`id`, `setNumber`, `weight`, `reps`, `notes`). -/
structure SetEntry where
  id : Nat
  setNumber : Int
  weight : Option String
  reps : Int
  notes : Option String
  deriving Repr, DecidableEq

def projW (w : Workout) : WProj :=
  { id := w.id, name := w.name, date := w.date, notes := w.notes }

def projWE (we : WorkoutExercise) : WEProj :=
  { id := we.id, order := we.order }

def projEx (e : Exercise) : ExProj :=
  { id := e.id, name := e.name, primaryMuscle := e.primaryMuscle }

def projSet (st : SetRow) : SetEntry :=
  { id := st.id, setNumber := st.setNumber, weight := st.weight,
    reps := st.reps, notes := st.notes }

/-- One entry of a returned workout's `exercises` array
(type `WorkoutWithExercises["exercises"][number]`). -/
structure ExerciseWithSets where
  id : Nat
  order : Int
  exercise : ExProj
  sets : List SetEntry
  deriving Repr, DecidableEq

/-- The `WorkoutWithExercises` result shape. -/
structure WorkoutWithExercises where
  id : Nat
  name : Option String
  date : Nat
  notes : Option String
  exercises : List ExerciseWithSets
  deriving Repr, DecidableEq

/-- The flat `WorkoutRow` produced by the wide left-join query:
nullable child columns are `Option`s. -/
structure WorkoutRow where
  workout : WProj
  workoutExercise : Option WEProj
  exercise : Option ExProj
  set : Option SetEntry
  deriving Repr, DecidableEq

/-- A generic SQL `LEFT JOIN`: each left row is paired with every right
row satisfying the condition, or with `none` when no right row matches. -/
def leftJoin (xs : List α) (ys : List β) (cond : α → β → Bool) :
    List (α × Option β) :=
  xs.flatMap fun a =>
    match ys.filter (fun b => cond a b) with
    | [] => [(a, none)]
    | zs => zs.map fun b => (a, some b)

/-- A generic SQL `INNER JOIN`: pairs satisfying the condition. -/
def innerJoin (xs : List α) (ys : List β) (cond : α → β → Bool) :
    List (α × β) :=
  xs.flatMap fun a => (ys.filter (fun b => cond a b)).map fun b => (a, b)

/-- Insert into a sorted list, before the first element that is not
`le`-below the inserted one (ties keep the existing element first). -/
def orderedInsert (le : α → α → Bool) (a : α) : List α → List α
  | [] => [a]
  | b :: l => if le a b then a :: b :: l else b :: orderedInsert le a l

/-- A stable sort by a boolean comparator.  Both Postgres `ORDER BY`
(applied to the store order) and the JS `Array.sort` of the transform
are modelled by this stable sort. -/
def sortBy (le : α → α → Bool) : List α → List α
  | [] => []
  | a :: l => orderedInsert le a (sortBy le l)

/-! ### The row-to-tree transform (`transformToWorkoutWithExercises`)

The JS implementation folds the flat rows into a `Map` keyed by workout
id whose values carry a nested `Map` keyed by workout-exercise id.  A JS
`Map` iterates in key-insertion order, so each map is modelled as a list
of groups in insertion order, keyed by the stored projection's `id`. -/

/-- Value of the inner `exercisesMap`: the first-seen workout-exercise and
exercise projections plus the accumulated `sets` array. -/
structure ExGroup where
  workoutExercise : WEProj
  exercise : ExProj
  sets : List SetEntry
  deriving Repr, DecidableEq

/-- Value of the outer `workoutsMap`: the workout projection plus the
inner insertion-ordered map. -/
structure WGroup where
  workout : WProj
  exercisesMap : List ExGroup
  deriving Repr, DecidableEq

/-- The body of the per-row loop acting on the inner map: get-or-create
the workout-exercise entry, then push the set if one is present. -/
def addChild (m : List ExGroup) (we : WEProj) (ex : ExProj)
    (st : Option SetEntry) : List ExGroup :=
  let m' := if m.any (fun g => g.workoutExercise.id == we.id) then m
    else m ++ [⟨we, ex, []⟩]
  match st with
  | some s => m'.map fun g =>
      if g.workoutExercise.id == we.id then { g with sets := g.sets ++ [s] }
      else g
  | none => m'

/-- The body of the per-row loop: get-or-create the workout entry, skip
rows with a null workout-exercise or exercise, else update the entry. -/
def addRow (acc : List WGroup) (r : WorkoutRow) : List WGroup :=
  let acc' := if acc.any (fun g => g.workout.id == r.workout.id) then acc
    else acc ++ [⟨r.workout, []⟩]
  match r.workoutExercise, r.exercise with
  | some we, some ex =>
      acc'.map fun g =>
        if g.workout.id == r.workout.id then
          { g with exercisesMap := addChild g.exercisesMap we ex r.set }
        else g
  | _, _ => acc'

/-- Comparator of the final `Array.sort` on exercises (`a.order - b.order`). -/
def exOrderLe (a b : ExGroup) : Bool :=
  decide (a.workoutExercise.order ≤ b.workoutExercise.order)

/-- Comparator of the final `Array.sort` on sets (`a.setNumber - b.setNumber`). -/
def setNumLe (a b : SetEntry) : Bool :=
  decide (a.setNumber ≤ b.setNumber)

/-- Final pass: one workout group becomes one `WorkoutWithExercises`,
sorting exercises by `order` and each exercise's sets by `setNumber`
(JS `Array.sort` is stable, modelled by the stable `sortBy`). -/
def finalizeGroup (g : WGroup) : WorkoutWithExercises :=
  { id := g.workout.id, name := g.workout.name, date := g.workout.date,
    notes := g.workout.notes,
    exercises := (sortBy exOrderLe g.exercisesMap).map fun e =>
      { id := e.workoutExercise.id, order := e.workoutExercise.order,
        exercise := e.exercise, sets := sortBy setNumLe e.sets } }

/-- `transformToWorkoutWithExercises`: fold the flat rows into the nested
maps, then emit the array structure. -/
def transformToWorkoutWithExercises (rows : List WorkoutRow) :
    List WorkoutWithExercises :=
  (rows.foldl addRow []).map finalizeGroup

namespace WideImpl

/-- The wide query's join chain:
`workouts LEFT JOIN workout_exercises ON we.workoutId = w.id
LEFT JOIN exercises ON e.id = we.exerciseId
LEFT JOIN sets ON s.workoutExerciseId = we.id`.
A join condition on a null workout-exercise is SQL-null, hence no match. -/
def joined (s : Store) :
    List (((Workout × Option WorkoutExercise) × Option Exercise) × Option SetRow) :=
  leftJoin
    (leftJoin
      (leftJoin s.workouts s.workoutExercises fun w we => we.workoutId == w.id)
      s.exercises fun p e =>
        match p.2 with
        | some we => e.id == we.exerciseId
        | none => false)
    s.sets fun p st =>
      match p.1.2 with
      | some we => st.workoutExerciseId == we.id
      | none => false

/-- The select projection of the wide query. -/
def toRow (p : ((Workout × Option WorkoutExercise) × Option Exercise) × Option SetRow) :
    WorkoutRow :=
  { workout := projW p.1.1.1, workoutExercise := p.1.1.2.map projWE,
    exercise := p.1.2.map projEx, set := p.2.map projSet }

/-- Ascending comparison of nullable sort keys, null ordered last
(Postgres default `NULLS LAST` for ascending `ORDER BY`). -/
def optIntLe (a b : Option Int) : Bool :=
  match a, b with
  | some x, some y => decide (x ≤ y)
  | some _, none => true
  | none, some _ => false
  | none, none => true

/-- `ORDER BY workouts.id, workout_exercises."order", sets.set_number`
as a lexicographic comparator on the projected rows. -/
def rowLe (r₁ r₂ : WorkoutRow) : Bool :=
  if r₁.workout.id == r₂.workout.id then
    if (r₁.workoutExercise.map WEProj.order) == (r₂.workoutExercise.map WEProj.order) then
      optIntLe (r₁.set.map SetEntry.setNumber) (r₂.set.map SetEntry.setNumber)
    else
      optIntLe (r₁.workoutExercise.map WEProj.order) (r₂.workoutExercise.map WEProj.order)
  else decide (r₁.workout.id ≤ r₂.workout.id)

/-- The wide query: join, `WHERE userId = ? AND date = ?` (on workout
columns, evaluated on the joined rows), projection, `ORDER BY`. -/
def rowsFor (s : Store) (userId : String) (date : Nat) : List WorkoutRow :=
  sortBy rowLe (((joined s).filter fun p =>
    p.1.1.1.userId == userId && p.1.1.1.date == date).map toRow)

/-- The single-wide-left-join `getWorkoutsByDate` followed by
`transformToWorkoutWithExercises`. -/
def getWorkoutsByDate (s : Store) (userId : String) (date : Nat) :
    List WorkoutWithExercises :=
  transformToWorkoutWithExercises (rowsFor s userId date)

end WideImpl

namespace SeqImpl

/-- `ORDER BY workout_exercises."order"` on the inner-join rows. -/
def weOrderLe (a b : WorkoutExercise × Exercise) : Bool :=
  decide (a.1.order ≤ b.1.order)

/-- `ORDER BY sets.set_number`. -/
def setRowLe (a b : SetRow) : Bool :=
  decide (a.setNumber ≤ b.setNumber)

/-- Per-workout query pair of the sequential implementation: the
workout-exercises inner-joined with the exercise catalog ordered by
`order`, and per workout-exercise its sets ordered by `setNumber`. -/
def exercisesWithSets (s : Store) (workoutId : Nat) : List ExerciseWithSets :=
  let wel := sortBy weOrderLe
    ((s.workoutExercises.filter fun we => we.workoutId == workoutId).flatMap
      fun we => (s.exercises.filter fun e => e.id == we.exerciseId).map
        fun e => (we, e))
  wel.map fun p =>
    { id := p.1.id, order := p.1.order, exercise := projEx p.2,
      sets := (sortBy setRowLe
        (s.sets.filter fun st => st.workoutExerciseId == p.1.id)).map projSet }

/-- The sequential multi-query `getWorkoutsByDate`: one workouts query
(store order, no `ORDER BY`), early return on empty, then per-workout
child queries. -/
def getWorkoutsByDate (s : Store) (userId : String) (date : Nat) :
    List WorkoutWithExercises :=
  let userWorkouts := s.workouts.filter fun w => w.userId == userId && w.date == date
  if userWorkouts.isEmpty then []
  else userWorkouts.map fun w =>
    { id := w.id, name := w.name, date := w.date, notes := w.notes,
      exercises := exercisesWithSets s w.id }

end SeqImpl

/-! ### `getWorkoutSummary`

The data-layer version issues its four sub-queries through `Promise.all`
and the sequential/server-action versions issue the identical four
queries one after another; the pure result is the same and is defined
once here from the four sub-query definitions.  `today` is the current
wall-clock date truncated to a calendar date
(`new Date()` … `toISOString().split("T")[0]`), passed explicitly. -/

/-- `SELECT count(*) FROM workouts WHERE user_id = ?`. -/
def totalWorkoutsQuery (s : Store) (userId : String) : Nat :=
  (s.workouts.filter fun w => w.userId == userId).length

/-- One entry of `recentWorkouts`: `{id, name, date}`. -/
structure RecentWorkout where
  id : Nat
  name : Option String
  date : Nat
  deriving Repr, DecidableEq

/-- `ORDER BY workouts.date DESC`. -/
def dateDesc (a b : Workout) : Bool :=
  decide (b.date ≤ a.date)

/-- `SELECT id, name, date FROM workouts WHERE user_id = ?
ORDER BY date DESC LIMIT 5`. -/
def recentWorkoutsQuery (s : Store) (userId : String) : List RecentWorkout :=
  ((sortBy dateDesc (s.workouts.filter fun w => w.userId == userId)).take 5).map
    fun w => { id := w.id, name := w.name, date := w.date }

/-- `SELECT count(*) FROM workout_exercises JOIN workouts ON
we.workout_id = w.id WHERE user_id = ? AND date >= ?`. -/
def exercisesCountQuery (s : Store) (userId : String) (cutoff : Nat) : Nat :=
  ((innerJoin s.workoutExercises s.workouts fun we w => we.workoutId == w.id).filter
    fun p => p.2.userId == userId && decide (cutoff ≤ p.2.date)).length

/-- `SELECT count(*) FROM sets JOIN workout_exercises ON
s.workout_exercise_id = we.id JOIN workouts ON we.workout_id = w.id
WHERE user_id = ? AND date >= ?`. -/
def setsCountQuery (s : Store) (userId : String) (cutoff : Nat) : Nat :=
  (((innerJoin
      (innerJoin s.sets s.workoutExercises fun st we => st.workoutExerciseId == we.id)
      s.workouts fun p w => p.2.workoutId == w.id).filter
    fun p => p.2.userId == userId && decide (cutoff ≤ p.2.date))).length

/-- The `WorkoutSummary` result shape. -/
structure WorkoutSummary where
  totalWorkouts : Nat
  totalExercises : Nat
  totalSets : Nat
  recentWorkouts : List RecentWorkout
  lastWorkoutDate : Option Nat
  deriving Repr, DecidableEq

/-- `getWorkoutSummary(userId)`: the 30-day cutoff is computed once per
call from `today` (`thirtyDaysAgo = today - 30`, calendar-date
arithmetic), then the four sub-queries are combined;
`lastWorkoutDate = recentWorkouts[0]?.date ?? null`. -/
def getWorkoutSummary (s : Store) (userId : String) (today : Nat) : WorkoutSummary :=
  let thirtyDaysAgo := today - 30
  let recent := recentWorkoutsQuery s userId
  { totalWorkouts := totalWorkoutsQuery s userId,
    totalExercises := exercisesCountQuery s userId thirtyDaysAgo,
    totalSets := setsCountQuery s userId thirtyDaysAgo,
    recentWorkouts := recent,
    lastWorkoutDate := recent.head?.map RecentWorkout.date }

/-! ### Failure behavior of the `Promise.all` fan-out -/

/-- A store-level failure of one sub-query. -/
inductive QueryError where
  | storeFailure : String → QueryError
  deriving Repr, DecidableEq

/-- `Promise.all` over four independent sub-queries: fulfils with the
tuple of results when all fulfil, rejects when any rejects (the value
surfaced is a rejection reason; which rejection wins a race is timing-
dependent, modelled as the first in index order). -/
def promiseAll4 (a : Except QueryError α) (b : Except QueryError β)
    (c : Except QueryError γ) (d : Except QueryError δ) :
    Except QueryError (α × β × γ × δ) := do
  let x ← a
  let y ← b
  let z ← c
  let w ← d
  return (x, y, z, w)

/-- The data-layer `getWorkoutSummary` with explicit fault injection:
`f₁ … f₄` optionally make the total-count, recent-workouts,
30-day-exercise-count and 30-day-set-count sub-queries fail.  The
summary record is only assembled from the `Promise.all` tuple. -/
def getWorkoutSummaryFallible (s : Store) (userId : String) (today : Nat)
    (f₁ f₂ f₃ f₄ : Option QueryError) : Except QueryError WorkoutSummary :=
  let thirtyDaysAgo := today - 30
  let q₁ : Except QueryError Nat := match f₁ with
    | some e => .error e
    | none => .ok (totalWorkoutsQuery s userId)
  let q₂ : Except QueryError (List RecentWorkout) := match f₂ with
    | some e => .error e
    | none => .ok (recentWorkoutsQuery s userId)
  let q₃ : Except QueryError Nat := match f₃ with
    | some e => .error e
    | none => .ok (exercisesCountQuery s userId thirtyDaysAgo)
  let q₄ : Except QueryError Nat := match f₄ with
    | some e => .error e
    | none => .ok (setsCountQuery s userId thirtyDaysAgo)
  (promiseAll4 q₁ q₂ q₃ q₄).map fun r =>
    { totalWorkouts := r.1, totalExercises := r.2.2.1, totalSets := r.2.2.2,
      recentWorkouts := r.2.1,
      lastWorkoutDate := r.2.1.head?.map RecentWorkout.date }

/-! ### Server actions (auth boundary) -/

/-- The server action `getWorkoutSummary()` of `src/app/actions.ts`:
resolves the Clerk user id and returns `null` when there is none, else
runs the same four summary queries. -/
def appGetWorkoutSummary (auth : Option String) (s : Store) (today : Nat) :
    Option WorkoutSummary :=
  match auth with
  | none => none
  | some userId => some (getWorkoutSummary s userId today)

/-- The server action `getWorkoutsByDate(date)` of
`src/app/dashboard/actions.ts`: resolves the Clerk user id and returns
`[]` when there is none, else runs the sequential multi-query
implementation (the action body inlines the same queries as the
data-layer sequential version). -/
def dashboardGetWorkoutsByDate (auth : Option String) (s : Store) (date : Nat) :
    List WorkoutWithExercises :=
  match auth with
  | none => []
  | some userId => SeqImpl.getWorkoutsByDate s userId date

/-! ### Delete semantics from the schema's foreign-key rules -/

/-- Failure of a delete because of a `RESTRICT` foreign key. -/
inductive DeleteError where
  | restrictViolation
  deriving Repr, DecidableEq

/-- Modelled from the spec: the repository declares
`workout_exercises.exercise_id references exercises onDelete restrict`
but contains no delete-execution code (the relational engine is an
external collaborator), so deletion follows the spec: "Deleting an
Exercise that is referenced by any WorkoutExercise is rejected",
leaving the store unchanged; otherwise the row is removed. -/
def deleteExercise (s : Store) (exerciseId : Nat) : Except DeleteError Store :=
  if s.workoutExercises.any (fun we => we.exerciseId == exerciseId) then
    Except.error DeleteError.restrictViolation
  else
    Except.ok { s with exercises := s.exercises.filter fun e => !(e.id == exerciseId) }

/-- Modelled from the spec: the schema declares
`workout_exercises.workout_id references workouts onDelete cascade` and
`sets.workout_exercise_id references workout_exercises onDelete cascade`;
deletion of a workout removes it, its workout-exercises, and the sets of
those workout-exercises ("Deleting a Workout cascades to its
WorkoutExercises and their Sets"). -/
def deleteWorkout (s : Store) (workoutId : Nat) : Store :=
  { s with
    workouts := s.workouts.filter fun w => !(w.id == workoutId),
    workoutExercises := s.workoutExercises.filter fun we => !(we.workoutId == workoutId),
    sets := s.sets.filter fun st =>
      !(s.workoutExercises.any fun we =>
        we.id == st.workoutExerciseId && we.workoutId == workoutId) }

/-- Modelled from the spec: executing a delete against the transactional
store — a rejected delete rolls back, so the state after a failed
attempt is the state before it. -/
def runDeleteExercise (s : Store) (exerciseId : Nat) : Store × Option DeleteError :=
  match deleteExercise s exerciseId with
  | Except.ok s' => (s', none)
  | Except.error e => (s, some e)

/-- Verification auxiliary: the store with its workouts table restricted
to the given owner's rows.  Because every query reaches the other tables
only through a workout of the requesting user, query results on the
restricted store witness that only owner-rooted rows are used. -/
def restrictToUser (s : Store) (u : String) : Store :=
  { s with workouts := s.workouts.filter fun w => w.userId == u }

/-- `ORDER BY workouts.id` as a comparator (uuids are modelled as `Nat`). -/
def workoutIdLe (a b : Workout) : Bool := decide (a.id ≤ b.id)

/-- Comparison of workout-exercise rows by their `order` column. -/
def weRowOrdLe (a b : WorkoutExercise) : Bool := decide (a.order ≤ b.order)

/-- Comparison of result entries by their `order` field. -/
def entryOrdLe (a b : ExerciseWithSets) : Bool := decide (a.order ≤ b.order)

/-- Verification auxiliary: the right-hand rows a left join pairs with
one left row — the matches, or a single null on a miss. -/
def optRows (l : List β) : List (Option β) :=
  match l with
  | [] => [none]
  | ys => ys.map some

/-- Verification auxiliary: one workout's slice of the wide join chain
(before projection and sorting). -/
def wideBlock (s : Store) (w : Workout) :
    List (((Workout × Option WorkoutExercise) × Option Exercise) × Option SetRow) :=
  (optRows (s.workoutExercises.filter fun we => we.workoutId == w.id)).flatMap fun we? =>
    (optRows (s.exercises.filter fun e =>
        match we? with
        | some we => e.id == we.exerciseId
        | none => false)).flatMap fun e? =>
      (optRows (s.sets.filter fun st =>
          match we? with
          | some we => st.workoutExerciseId == we.id
          | none => false)).map fun st? => (((w, we?), e?), st?)

/-- Verification auxiliary: the canonical (set-sorted) run of projected
wide rows of one workout-exercise. -/
def crun (s : Store) (w : Workout) (we : WorkoutExercise) : List WorkoutRow :=
  (optRows (s.exercises.filter fun e => e.id == we.exerciseId)).flatMap fun e? =>
    (optRows (sortBy SeqImpl.setRowLe
        (s.sets.filter fun st => st.workoutExerciseId == we.id))).map
      fun st? => ⟨projW w, some (projWE we), e?.map projEx, st?.map projSet⟩

/-- Verification auxiliary: the canonical sorted block of projected wide
rows belonging to one workout: its workout-exercises in `order`-sorted
order, each with its `setNumber`-sorted set rows, or the single null row
when the workout has no workout-exercises. -/
def csBlock (s : Store) (w : Workout) : List WorkoutRow :=
  match s.workoutExercises.filter fun we => we.workoutId == w.id with
  | [] => [⟨projW w, none, none, none⟩]
  | wes => (sortBy weRowOrdLe wes).flatMap (crun s w)

/-- The transform's per-row action on one workout's inner exercises map. -/
def childStep (m : List ExGroup) (r : WorkoutRow) : List ExGroup :=
  match r.workoutExercise, r.exercise with
  | some we, some ex => addChild m we ex r.set
  | _, _ => m

/-- The child-building part of the transform's fold over one workout's
rows. -/
def foldChildren (rows : List WorkoutRow) : List ExGroup :=
  rows.foldl childStep []

/-- Verification auxiliary: the canonical child entries of one workout —
its workout-exercises sorted by `order`, inner-joined to the catalog,
with sets sorted by `setNumber`. -/
def centries (s : Store) (wid : Nat) : List ExGroup :=
  (sortBy weRowOrdLe (s.workoutExercises.filter fun we => we.workoutId == wid)).flatMap
    fun we => (s.exercises.filter fun e => e.id == we.exerciseId).map
      fun e => ⟨projWE we, projEx e,
        (sortBy SeqImpl.setRowLe
          (s.sets.filter fun st => st.workoutExerciseId == we.id)).map projSet⟩

/-! ### Claims -/

/-! ### Sorting toolkit -/

/-- `orderedInsert` permutes to consing. -/
theorem orderedInsert_perm (le : α → α → Bool) (a : α) (l : List α) :
    (orderedInsert le a l).Perm (a :: l) := by
  induction l with
  | nil => simp [orderedInsert]
  | cons b l ih =>
    simp only [orderedInsert]
    split
    · exact List.Perm.refl _
    · exact (ih.cons b).trans (List.Perm.swap a b l)

/-- `sortBy` is a permutation of its input. -/
theorem sortBy_perm (le : α → α → Bool) (l : List α) : (sortBy le l).Perm l := by
  induction l with
  | nil => exact List.Perm.refl _
  | cons a l ih => exact (orderedInsert_perm le a (sortBy le l)).trans (ih.cons a)

/-- Membership is preserved by `sortBy`. -/
theorem mem_sortBy {le : α → α → Bool} {a : α} {l : List α} :
    a ∈ sortBy le l ↔ a ∈ l :=
  (sortBy_perm le l).mem_iff

/-- Length is preserved by `sortBy`. -/
theorem length_sortBy (le : α → α → Bool) (l : List α) :
    (sortBy le l).length = l.length :=
  (sortBy_perm le l).length_eq

/-- `orderedInsert` into a sorted list is sorted, for a transitive total
comparator. -/
theorem pairwise_orderedInsert {le : α → α → Bool}
    (trans : ∀ a b c, le a b → le b c → le a c)
    (total : ∀ a b, le a b || le b a) (a : α) (l : List α)
    (h : l.Pairwise (le · ·)) : (orderedInsert le a l).Pairwise (le · ·) := by
  induction l with
  | nil => simp [orderedInsert]
  | cons b l ih =>
    rw [List.pairwise_cons] at h
    simp only [orderedInsert]
    split
    next hab =>
      refine List.pairwise_cons.mpr ⟨?_, List.pairwise_cons.mpr h⟩
      intro x hx
      rcases List.mem_cons.mp hx with rfl | hx
      · exact hab
      · exact trans a b x hab (h.1 x hx)
    next hab =>
      have hba : le b a := by
        rcases Bool.or_eq_true _ _ |>.mp (total a b) with h' | h'
        · exact absurd h' hab
        · exact h'
      refine List.pairwise_cons.mpr ⟨?_, ih h.2⟩
      intro x hx
      rcases List.mem_cons.mp ((orderedInsert_perm le a l).mem_iff.mp hx) with rfl | hx'
      · exact hba
      · exact h.1 x hx'

/-- `sortBy` sorts, for a transitive total comparator. -/
theorem pairwise_sortBy {le : α → α → Bool}
    (trans : ∀ a b c, le a b → le b c → le a c)
    (total : ∀ a b, le a b || le b a) (l : List α) :
    (sortBy le l).Pairwise (le · ·) := by
  induction l with
  | nil => exact List.Pairwise.nil
  | cons a l ih => exact pairwise_orderedInsert trans total a _ ih

/-- `sortBy` fixes already-sorted lists. -/
theorem sortBy_of_sorted {le : α → α → Bool} :
    ∀ {l : List α}, l.Pairwise (le · ·) → sortBy le l = l
  | [], _ => rfl
  | a :: l, h => by
    rw [List.pairwise_cons] at h
    rw [sortBy, sortBy_of_sorted h.2]
    cases l with
    | nil => rfl
    | cons b l => simp [orderedInsert, h.1 b (List.mem_cons_self b l)]

/-- Two sorted permutations of each other are equal, provided the
comparator is antisymmetric on the elements actually present. -/
theorem eq_of_perm_of_sorted_local (le : α → α → Bool) :
    ∀ {l₁ l₂ : List α},
      (∀ a b, a ∈ l₁ → b ∈ l₁ → le a b → le b a → a = b) →
      l₁.Perm l₂ → l₁.Pairwise (le · ·) → l₂.Pairwise (le · ·) → l₁ = l₂
  | [], l₂, _, hp, _, _ => (hp.nil_eq).symm ▸ rfl
  | a :: t, [], _, hp, _, _ => absurd hp.length_eq (by simp)
  | a :: t, b :: t₂, anti, hp, h₁, h₂ => by
    have hab : a = b := by
      rcases List.mem_cons.mp (hp.mem_iff.mp (List.mem_cons_self a t)) with h' | hat2
      · exact h'
      · rcases List.mem_cons.mp (hp.symm.mem_iff.mp (List.mem_cons_self b t₂)) with h' | hbt
        · exact h'.symm
        · exact anti a b (List.mem_cons_self a t) (List.mem_cons_of_mem a hbt)
            (List.rel_of_pairwise_cons h₁ hbt) (List.rel_of_pairwise_cons h₂ hat2)
    subst hab
    have ht : t = t₂ :=
      eq_of_perm_of_sorted_local le
        (fun x y hx hy => anti x y (List.mem_cons_of_mem a hx) (List.mem_cons_of_mem a hy))
        hp.cons_inv (List.pairwise_cons.mp h₁).2 (List.pairwise_cons.mp h₂).2
    rw [ht]


/-- C7: when no authenticated user id can be resolved, the server-action
`getWorkoutsByDate` returns the empty list and the server-action
`getWorkoutSummary` returns null, for every store state, input date and
call time. -/
theorem unauthenticated_reads_return_empty (s : Store) (date today : Nat) :
    dashboardGetWorkoutsByDate none s date = [] ∧
    appGetWorkoutSummary none s today = none :=
  ⟨rfl, rfl⟩

/-- C8: if any of the four `Promise.all` sub-queries of
`getWorkoutSummary` fails, the whole call fails with an error (no
partially-populated `WorkoutSummary` is returned); when none fails, the
call returns exactly the pure summary. -/
theorem summary_subquery_failure_fails_call (s : Store) (u : String) (today : Nat)
    (f₁ f₂ f₃ f₄ : Option QueryError)
    (h : f₁ ≠ none ∨ f₂ ≠ none ∨ f₃ ≠ none ∨ f₄ ≠ none) :
    (∃ e, getWorkoutSummaryFallible s u today f₁ f₂ f₃ f₄ = Except.error e) ∧
    getWorkoutSummaryFallible s u today none none none none =
      Except.ok (getWorkoutSummary s u today) := by
  refine ⟨?_, rfl⟩
  rcases f₁ with _ | e₁
  · rcases f₂ with _ | e₂
    · rcases f₃ with _ | e₃
      · rcases f₄ with _ | e₄
        · rcases h with h | h | h | h <;> simp at h
        · exact ⟨e₄, rfl⟩
      · exact ⟨e₃, rfl⟩
    · exact ⟨e₂, rfl⟩
  · exact ⟨e₁, rfl⟩

/-- C8 witness: a failing third sub-query makes the whole summary call
fail, and an injection-free call returns the pure summary. -/
theorem summary_subquery_failure_fails_call_witness :
    ((some (QueryError.storeFailure "db down") : Option QueryError) ≠ none ∨
      (none : Option QueryError) ≠ none ∨ (none : Option QueryError) ≠ none ∨
      (none : Option QueryError) ≠ none) ∧
    ((∃ e, getWorkoutSummaryFallible ⟨[], [], [], []⟩ "u" 100
        (some (QueryError.storeFailure "db down")) none none none = Except.error e) ∧
      getWorkoutSummaryFallible ⟨[], [], [], []⟩ "u" 100 none none none none =
        Except.ok (getWorkoutSummary ⟨[], [], [], []⟩ "u" 100)) :=
  ⟨Or.inl (by decide),
    summary_subquery_failure_fails_call ⟨[], [], [], []⟩ "u" 100 _ none none none
      (Or.inl (by decide))⟩


/-- C9: deleting an Exercise referenced by some WorkoutExercise is
rejected and leaves every table unchanged, while deleting a Workout
removes exactly that workout together with its WorkoutExercises and
their Sets (and nothing else). -/
theorem delete_restrict_and_cascade (s : Store) (eid wid : Nat) :
    ((∃ we ∈ s.workoutExercises, we.exerciseId = eid) →
      runDeleteExercise s eid = (s, some DeleteError.restrictViolation)) ∧
    ((deleteWorkout s wid).exercises = s.exercises) ∧
    (∀ w, w ∈ (deleteWorkout s wid).workouts ↔ w ∈ s.workouts ∧ w.id ≠ wid) ∧
    (∀ we, we ∈ (deleteWorkout s wid).workoutExercises ↔
      we ∈ s.workoutExercises ∧ we.workoutId ≠ wid) ∧
    (∀ st, st ∈ (deleteWorkout s wid).sets ↔ st ∈ s.sets ∧
      ∀ we ∈ s.workoutExercises, we.id = st.workoutExerciseId → we.workoutId ≠ wid) := by
  refine ⟨?_, rfl, ?_, ?_, ?_⟩
  · rintro ⟨we, hmem, heq⟩
    have hany : s.workoutExercises.any (fun we => we.exerciseId == eid) = true := by
      simp only [List.any_eq_true]
      exact ⟨we, hmem, by simp [heq]⟩
    simp [runDeleteExercise, deleteExercise, hany]
  · intro w
    simp [deleteWorkout, List.mem_filter]
  · intro we
    simp [deleteWorkout, List.mem_filter]
  · intro st
    simp only [deleteWorkout, List.mem_filter, Bool.not_eq_true', List.any_eq_false,
      Bool.and_eq_true, beq_iff_eq, not_and, and_congr_right_iff]

/-- C9 witness: in a store where exercise 10 is referenced, its deletion
is rejected and leaves the state intact; deleting workout 1 removes its
workout-exercise and set while keeping the catalog. -/
theorem delete_restrict_and_cascade_witness :
    (∃ we ∈ ([⟨20, 1, 10, 1⟩] : List WorkoutExercise), we.exerciseId = 10) ∧
    ((∃ we ∈ ([⟨20, 1, 10, 1⟩] : List WorkoutExercise), we.exerciseId = 10) →
      runDeleteExercise ⟨[⟨1, "u", none, 100, none⟩], [⟨20, 1, 10, 1⟩],
          [⟨10, "squat", none, none⟩], [⟨30, 20, 1, none, 5, none⟩]⟩ 10 =
        (⟨[⟨1, "u", none, 100, none⟩], [⟨20, 1, 10, 1⟩], [⟨10, "squat", none, none⟩],
          [⟨30, 20, 1, none, 5, none⟩]⟩, some DeleteError.restrictViolation)) ∧
    ((deleteWorkout ⟨[⟨1, "u", none, 100, none⟩], [⟨20, 1, 10, 1⟩],
        [⟨10, "squat", none, none⟩], [⟨30, 20, 1, none, 5, none⟩]⟩ 1).exercises =
      [⟨10, "squat", none, none⟩]) ∧
    (deleteWorkout ⟨[⟨1, "u", none, 100, none⟩], [⟨20, 1, 10, 1⟩],
        [⟨10, "squat", none, none⟩], [⟨30, 20, 1, none, 5, none⟩]⟩ 1).workouts = [] ∧
    (deleteWorkout ⟨[⟨1, "u", none, 100, none⟩], [⟨20, 1, 10, 1⟩],
        [⟨10, "squat", none, none⟩], [⟨30, 20, 1, none, 5, none⟩]⟩ 1).workoutExercises = [] ∧
    (deleteWorkout ⟨[⟨1, "u", none, 100, none⟩], [⟨20, 1, 10, 1⟩],
        [⟨10, "squat", none, none⟩], [⟨30, 20, 1, none, 5, none⟩]⟩ 1).sets = [] :=
  ⟨by decide,
    ((delete_restrict_and_cascade ⟨[⟨1, "u", none, 100, none⟩], [⟨20, 1, 10, 1⟩],
      [⟨10, "squat", none, none⟩], [⟨30, 20, 1, none, 5, none⟩]⟩ 10 1).1),
    by decide, by decide, by decide, by decide⟩

/-- C4: the summary's 30-day window boundary is the single cutoff
`today - 30` computed once per call from the call-time calendar date and
used by both 30-day counts; a workout-exercise and set whose workout is
dated exactly 30 days before today count toward
`totalExercises`/`totalSets`, and ones dated 31 days before do not. -/
theorem summary_window_inclusive_boundary (s : Store) (u : String) (today : Nat)
    (wid weid sid eid : Nat) (nm nts : Option String) (ord sn rp : Int)
    (wt : Option String) (h : 31 ≤ today) :
    ((getWorkoutSummary s u today).totalExercises
        = exercisesCountQuery s u (today - 30) ∧
      (getWorkoutSummary s u today).totalSets = setsCountQuery s u (today - 30)) ∧
    ((getWorkoutSummary
        ⟨[⟨wid, u, nm, today - 30, nts⟩], [⟨weid, wid, eid, ord⟩], [],
          [⟨sid, weid, sn, wt, rp, nts⟩]⟩ u today).totalExercises = 1 ∧
      (getWorkoutSummary
        ⟨[⟨wid, u, nm, today - 30, nts⟩], [⟨weid, wid, eid, ord⟩], [],
          [⟨sid, weid, sn, wt, rp, nts⟩]⟩ u today).totalSets = 1) ∧
    ((getWorkoutSummary
        ⟨[⟨wid, u, nm, today - 31, nts⟩], [⟨weid, wid, eid, ord⟩], [],
          [⟨sid, weid, sn, wt, rp, nts⟩]⟩ u today).totalExercises = 0 ∧
      (getWorkoutSummary
        ⟨[⟨wid, u, nm, today - 31, nts⟩], [⟨weid, wid, eid, ord⟩], [],
          [⟨sid, weid, sn, wt, rp, nts⟩]⟩ u today).totalSets = 0) := by
  have h1 : today ≤ today - 30 + 30 := by omega
  have h2 : ¬(today ≤ today - 31 + 30) := by omega
  refine ⟨⟨rfl, rfl⟩, ⟨?_, ?_⟩, ⟨?_, ?_⟩⟩ <;>
    simp [getWorkoutSummary, exercisesCountQuery, setsCountQuery, innerJoin,
      List.filter_cons, h1, h2]

/-- C4 witness: with today = 100, a workout dated 70 counts and one
dated 69 does not. -/
theorem summary_window_inclusive_boundary_witness :
    31 ≤ 100 ∧
    (((getWorkoutSummary ⟨[⟨1, "u", none, 70, none⟩], [⟨20, 1, 10, 1⟩], [],
          [⟨30, 20, 1, none, 5, none⟩]⟩ "u" 100).totalExercises
        = exercisesCountQuery ⟨[⟨1, "u", none, 70, none⟩], [⟨20, 1, 10, 1⟩], [],
          [⟨30, 20, 1, none, 5, none⟩]⟩ "u" 70 ∧
      (getWorkoutSummary ⟨[⟨1, "u", none, 70, none⟩], [⟨20, 1, 10, 1⟩], [],
          [⟨30, 20, 1, none, 5, none⟩]⟩ "u" 100).totalSets
        = setsCountQuery ⟨[⟨1, "u", none, 70, none⟩], [⟨20, 1, 10, 1⟩], [],
          [⟨30, 20, 1, none, 5, none⟩]⟩ "u" 70) ∧
    ((getWorkoutSummary ⟨[⟨1, "u", none, 70, none⟩], [⟨20, 1, 10, 1⟩], [],
          [⟨30, 20, 1, none, 5, none⟩]⟩ "u" 100).totalExercises = 1 ∧
      (getWorkoutSummary ⟨[⟨1, "u", none, 70, none⟩], [⟨20, 1, 10, 1⟩], [],
          [⟨30, 20, 1, none, 5, none⟩]⟩ "u" 100).totalSets = 1) ∧
    ((getWorkoutSummary ⟨[⟨1, "u", none, 69, none⟩], [⟨20, 1, 10, 1⟩], [],
          [⟨30, 20, 1, none, 5, none⟩]⟩ "u" 100).totalExercises = 0 ∧
      (getWorkoutSummary ⟨[⟨1, "u", none, 69, none⟩], [⟨20, 1, 10, 1⟩], [],
          [⟨30, 20, 1, none, 5, none⟩]⟩ "u" 100).totalSets = 0)) :=
  ⟨by decide,
    summary_window_inclusive_boundary ⟨[⟨1, "u", none, 70, none⟩], [⟨20, 1, 10, 1⟩], [],
      [⟨30, 20, 1, none, 5, none⟩]⟩ "u" 100 1 20 30 10 none none 1 1 5 none (by decide)⟩

/-- `dateDesc` is transitive. -/
theorem dateDesc_trans : ∀ a b c : Workout, dateDesc a b → dateDesc b c → dateDesc a c := by
  intro a b c hab hbc
  simp only [dateDesc, decide_eq_true_eq] at *
  omega

/-- `dateDesc` is total. -/
theorem dateDesc_total : ∀ a b : Workout, dateDesc a b || dateDesc b a := by
  intro a b
  simp only [dateDesc, Bool.or_eq_true, decide_eq_true_eq]
  omega

/-- C5: `recentWorkouts` has at most 5 entries (exactly
`min 5 (user's workout count)`), is ordered by date descending, each
entry is the `{id, name, date}` projection of one of the user's stored
workouts, and a user with 7 workouts gets exactly 5 entries. -/
theorem recent_workouts_at_most_five (s : Store) (u : String) (today : Nat) :
    (getWorkoutSummary s u today).recentWorkouts.length ≤ 5 ∧
    (getWorkoutSummary s u today).recentWorkouts.length
      = min 5 (s.workouts.filter fun w => w.userId == u).length ∧
    (getWorkoutSummary s u today).recentWorkouts.Pairwise (fun a b => b.date ≤ a.date) ∧
    (∀ r ∈ (getWorkoutSummary s u today).recentWorkouts,
      ∃ w ∈ s.workouts, w.userId = u ∧ r = ⟨w.id, w.name, w.date⟩) ∧
    ((s.workouts.filter fun w => w.userId == u).length = 7 →
      (getWorkoutSummary s u today).recentWorkouts.length = 5) := by
  have hlen : (getWorkoutSummary s u today).recentWorkouts.length
      = min 5 (s.workouts.filter fun w => w.userId == u).length := by
    simp [getWorkoutSummary, recentWorkoutsQuery, List.length_take, length_sortBy]
  refine ⟨by omega, hlen, ?_, ?_, fun h7 => by omega⟩
  · have hsorted : (sortBy dateDesc (s.workouts.filter fun w => w.userId == u)).Pairwise
        (fun a b => dateDesc a b) :=
      pairwise_sortBy dateDesc_trans dateDesc_total _
    have htake := hsorted.sublist (List.take_sublist 5 _)
    simp only [getWorkoutSummary, recentWorkoutsQuery]
    refine List.pairwise_map.mpr (htake.imp ?_)
    intro a b hab
    simpa [dateDesc] using hab
  · intro r hr
    simp only [getWorkoutSummary, recentWorkoutsQuery, List.mem_map] at hr
    obtain ⟨w, hw, rfl⟩ := hr
    have hw' : w ∈ sortBy dateDesc (s.workouts.filter fun w => w.userId == u) :=
      List.mem_of_mem_take hw
    rw [mem_sortBy, List.mem_filter] at hw'
    exact ⟨w, hw'.1, by simpa using hw'.2, rfl⟩

/-- C5 witness: a user with 7 workouts gets exactly the 5 most recent,
date descending. -/
theorem recent_workouts_at_most_five_witness :
    ((getWorkoutSummary ⟨[⟨1, "u", none, 101, none⟩, ⟨2, "u", none, 103, none⟩,
        ⟨3, "u", none, 102, none⟩, ⟨4, "u", none, 107, none⟩, ⟨5, "u", none, 105, none⟩,
        ⟨6, "u", none, 104, none⟩, ⟨7, "u", none, 106, none⟩], [], [], []⟩ "u"
        200).recentWorkouts.length ≤ 5 ∧
      (getWorkoutSummary ⟨[⟨1, "u", none, 101, none⟩, ⟨2, "u", none, 103, none⟩,
        ⟨3, "u", none, 102, none⟩, ⟨4, "u", none, 107, none⟩, ⟨5, "u", none, 105, none⟩,
        ⟨6, "u", none, 104, none⟩, ⟨7, "u", none, 106, none⟩], [], [], []⟩ "u"
        200).recentWorkouts.length
        = min 5 (([⟨1, "u", none, 101, none⟩, ⟨2, "u", none, 103, none⟩,
          ⟨3, "u", none, 102, none⟩, ⟨4, "u", none, 107, none⟩, ⟨5, "u", none, 105, none⟩,
          ⟨6, "u", none, 104, none⟩, ⟨7, "u", none, 106, none⟩] : List Workout).filter
            fun w => w.userId == "u").length ∧
      (getWorkoutSummary ⟨[⟨1, "u", none, 101, none⟩, ⟨2, "u", none, 103, none⟩,
        ⟨3, "u", none, 102, none⟩, ⟨4, "u", none, 107, none⟩, ⟨5, "u", none, 105, none⟩,
        ⟨6, "u", none, 104, none⟩, ⟨7, "u", none, 106, none⟩], [], [], []⟩ "u"
        200).recentWorkouts.Pairwise (fun a b => b.date ≤ a.date) ∧
      (∀ r ∈ (getWorkoutSummary ⟨[⟨1, "u", none, 101, none⟩, ⟨2, "u", none, 103, none⟩,
        ⟨3, "u", none, 102, none⟩, ⟨4, "u", none, 107, none⟩, ⟨5, "u", none, 105, none⟩,
        ⟨6, "u", none, 104, none⟩, ⟨7, "u", none, 106, none⟩], [], [], []⟩ "u"
        200).recentWorkouts,
        ∃ w ∈ ([⟨1, "u", none, 101, none⟩, ⟨2, "u", none, 103, none⟩,
          ⟨3, "u", none, 102, none⟩, ⟨4, "u", none, 107, none⟩, ⟨5, "u", none, 105, none⟩,
          ⟨6, "u", none, 104, none⟩, ⟨7, "u", none, 106, none⟩] : List Workout),
          w.userId = "u" ∧ r = ⟨w.id, w.name, w.date⟩) ∧
      ((([⟨1, "u", none, 101, none⟩, ⟨2, "u", none, 103, none⟩,
          ⟨3, "u", none, 102, none⟩, ⟨4, "u", none, 107, none⟩, ⟨5, "u", none, 105, none⟩,
          ⟨6, "u", none, 104, none⟩, ⟨7, "u", none, 106, none⟩] : List Workout).filter
            fun w => w.userId == "u").length = 7 →
        (getWorkoutSummary ⟨[⟨1, "u", none, 101, none⟩, ⟨2, "u", none, 103, none⟩,
          ⟨3, "u", none, 102, none⟩, ⟨4, "u", none, 107, none⟩, ⟨5, "u", none, 105, none⟩,
          ⟨6, "u", none, 104, none⟩, ⟨7, "u", none, 106, none⟩], [], [], []⟩ "u"
          200).recentWorkouts.length = 5)) ∧
    (getWorkoutSummary ⟨[⟨1, "u", none, 101, none⟩, ⟨2, "u", none, 103, none⟩,
        ⟨3, "u", none, 102, none⟩, ⟨4, "u", none, 107, none⟩, ⟨5, "u", none, 105, none⟩,
        ⟨6, "u", none, 104, none⟩, ⟨7, "u", none, 106, none⟩], [], [], []⟩ "u"
        200).recentWorkouts.map RecentWorkout.date = [107, 106, 105, 104, 103] :=
  ⟨recent_workouts_at_most_five ⟨[⟨1, "u", none, 101, none⟩, ⟨2, "u", none, 103, none⟩,
      ⟨3, "u", none, 102, none⟩, ⟨4, "u", none, 107, none⟩, ⟨5, "u", none, 105, none⟩,
      ⟨6, "u", none, 104, none⟩, ⟨7, "u", none, 106, none⟩], [], [], []⟩ "u" 200,
    by decide⟩

/-- C6: for a user with zero workouts the summary has totalWorkouts = 0,
recentWorkouts = [] and lastWorkoutDate = null; for a user with at least
one workout, lastWorkoutDate is the date of the most recent (first,
hence maximal) returned recent workout. -/
theorem summary_zero_workouts_and_last_date (s : Store) (u : String) (today : Nat) :
    ((s.workouts.filter fun w => w.userId == u) = [] →
      (getWorkoutSummary s u today).totalWorkouts = 0 ∧
      (getWorkoutSummary s u today).recentWorkouts = [] ∧
      (getWorkoutSummary s u today).lastWorkoutDate = none) ∧
    ((s.workouts.filter fun w => w.userId == u) ≠ [] →
      ∃ r rs, (getWorkoutSummary s u today).recentWorkouts = r :: rs ∧
        (getWorkoutSummary s u today).lastWorkoutDate = some r.date ∧
        ∀ r' ∈ (getWorkoutSummary s u today).recentWorkouts, r'.date ≤ r.date) := by
  constructor
  · intro h
    refine ⟨?_, ?_, ?_⟩ <;>
      simp [getWorkoutSummary, totalWorkoutsQuery, recentWorkoutsQuery, h, sortBy]
  · intro h
    obtain ⟨c, cs, hcs⟩ : ∃ c cs,
        sortBy dateDesc (s.workouts.filter fun w => w.userId == u) = c :: cs := by
      cases hsort : sortBy dateDesc (s.workouts.filter fun w => w.userId == u) with
      | nil =>
        exact absurd ((hsort ▸ sortBy_perm dateDesc
          (s.workouts.filter fun w => w.userId == u)).nil_eq).symm h
      | cons c cs => exact ⟨c, cs, rfl⟩
    have hpw := pairwise_sortBy dateDesc_trans dateDesc_total
      (s.workouts.filter fun w => w.userId == u)
    rw [hcs, List.pairwise_cons] at hpw
    refine ⟨⟨c.id, c.name, c.date⟩, (cs.take 4).map (fun w => ⟨w.id, w.name, w.date⟩),
      ?_, ?_, ?_⟩
    · simp [getWorkoutSummary, recentWorkoutsQuery, hcs, List.take_succ_cons]
    · simp [getWorkoutSummary, recentWorkoutsQuery, hcs, List.take_succ_cons]
    · intro r' hr'
      simp only [getWorkoutSummary, recentWorkoutsQuery, hcs, List.take_succ_cons,
        List.map_cons, List.mem_cons, List.mem_map] at hr'
      rcases hr' with rfl | ⟨w, hw, rfl⟩
      · exact le_refl _
      · have hcw : dateDesc c w := hpw.1 w (List.mem_of_mem_take hw)
        simpa [dateDesc] using hcw

/-- C6 witness: a store with two workouts for "u" and none for "v". -/
theorem summary_zero_workouts_and_last_date_witness :
    ((([⟨1, "u", none, 105, none⟩, ⟨2, "u", none, 110, none⟩] : List Workout).filter
        (fun w => w.userId == "u") = [] →
      (getWorkoutSummary ⟨[⟨1, "u", none, 105, none⟩, ⟨2, "u", none, 110, none⟩],
        [], [], []⟩ "u" 200).totalWorkouts = 0 ∧
      (getWorkoutSummary ⟨[⟨1, "u", none, 105, none⟩, ⟨2, "u", none, 110, none⟩],
        [], [], []⟩ "u" 200).recentWorkouts = [] ∧
      (getWorkoutSummary ⟨[⟨1, "u", none, 105, none⟩, ⟨2, "u", none, 110, none⟩],
        [], [], []⟩ "u" 200).lastWorkoutDate = none) ∧
    (([⟨1, "u", none, 105, none⟩, ⟨2, "u", none, 110, none⟩] : List Workout).filter
        (fun w => w.userId == "u") ≠ [] →
      ∃ r rs, (getWorkoutSummary ⟨[⟨1, "u", none, 105, none⟩,
          ⟨2, "u", none, 110, none⟩], [], [], []⟩ "u" 200).recentWorkouts = r :: rs ∧
        (getWorkoutSummary ⟨[⟨1, "u", none, 105, none⟩, ⟨2, "u", none, 110, none⟩],
          [], [], []⟩ "u" 200).lastWorkoutDate = some r.date ∧
        ∀ r' ∈ (getWorkoutSummary ⟨[⟨1, "u", none, 105, none⟩,
          ⟨2, "u", none, 110, none⟩], [], [], []⟩ "u" 200).recentWorkouts,
          r'.date ≤ r.date)) ∧
    (getWorkoutSummary ⟨[⟨1, "u", none, 105, none⟩, ⟨2, "u", none, 110, none⟩],
      [], [], []⟩ "u" 200).lastWorkoutDate = some 110 ∧
    (getWorkoutSummary ⟨[⟨1, "u", none, 105, none⟩, ⟨2, "u", none, 110, none⟩],
      [], [], []⟩ "v" 200).totalWorkouts = 0 ∧
    (getWorkoutSummary ⟨[⟨1, "u", none, 105, none⟩, ⟨2, "u", none, 110, none⟩],
      [], [], []⟩ "v" 200).recentWorkouts = [] ∧
    (getWorkoutSummary ⟨[⟨1, "u", none, 105, none⟩, ⟨2, "u", none, 110, none⟩],
      [], [], []⟩ "v" 200).lastWorkoutDate = none :=
  ⟨summary_zero_workouts_and_last_date ⟨[⟨1, "u", none, 105, none⟩,
      ⟨2, "u", none, 110, none⟩], [], [], []⟩ "u" 200,
    by decide, by decide, by decide, by decide⟩

theorem exOrderLe_trans : ∀ a b c : ExGroup, exOrderLe a b → exOrderLe b c → exOrderLe a c := by
  intro a b c
  simp only [exOrderLe, decide_eq_true_eq]
  omega

theorem exOrderLe_total : ∀ a b : ExGroup, exOrderLe a b || exOrderLe b a := by
  intro a b
  simp only [exOrderLe, Bool.or_eq_true, decide_eq_true_eq]
  omega

theorem setNumLe_trans : ∀ a b c : SetEntry, setNumLe a b → setNumLe b c → setNumLe a c := by
  intro a b c
  simp only [setNumLe, decide_eq_true_eq]
  omega

theorem setNumLe_total : ∀ a b : SetEntry, setNumLe a b || setNumLe b a := by
  intro a b
  simp only [setNumLe, Bool.or_eq_true, decide_eq_true_eq]
  omega

theorem weOrderLe_trans : ∀ a b c : WorkoutExercise × Exercise,
    SeqImpl.weOrderLe a b → SeqImpl.weOrderLe b c → SeqImpl.weOrderLe a c := by
  intro a b c
  simp only [SeqImpl.weOrderLe, decide_eq_true_eq]
  omega

theorem weOrderLe_total : ∀ a b : WorkoutExercise × Exercise,
    SeqImpl.weOrderLe a b || SeqImpl.weOrderLe b a := by
  intro a b
  simp only [SeqImpl.weOrderLe, Bool.or_eq_true, decide_eq_true_eq]
  omega

theorem setRowLe_trans : ∀ a b c : SetRow,
    SeqImpl.setRowLe a b → SeqImpl.setRowLe b c → SeqImpl.setRowLe a c := by
  intro a b c
  simp only [SeqImpl.setRowLe, decide_eq_true_eq]
  omega

theorem setRowLe_total : ∀ a b : SetRow, SeqImpl.setRowLe a b || SeqImpl.setRowLe b a := by
  intro a b
  simp only [SeqImpl.setRowLe, Bool.or_eq_true, decide_eq_true_eq]
  omega

/-- Helper: a finalized workout group has exercises sorted by `order`
and each exercise's sets sorted by `setNumber`. -/
theorem finalizeGroup_sorted (g : WGroup) :
    (finalizeGroup g).exercises.Pairwise (fun a b => a.order ≤ b.order) ∧
    ∀ ex ∈ (finalizeGroup g).exercises,
      ex.sets.Pairwise (fun a b => a.setNumber ≤ b.setNumber) := by
  constructor
  · refine List.pairwise_map.mpr ((pairwise_sortBy exOrderLe_trans exOrderLe_total _).imp ?_)
    intro a b hab
    simpa [exOrderLe] using hab
  · intro ex hex
    rcases List.mem_map.mp hex with ⟨e, _, rfl⟩
    exact (pairwise_sortBy setNumLe_trans setNumLe_total _).imp (by
      intro a b hab
      simpa [setNumLe] using hab)

/-- Helper: the sequential per-workout child queries return exercises
sorted by `order` and sets sorted by `setNumber`. -/
theorem exercisesWithSets_sorted (s : Store) (wid : Nat) :
    (SeqImpl.exercisesWithSets s wid).Pairwise (fun a b => a.order ≤ b.order) ∧
    ∀ ex ∈ SeqImpl.exercisesWithSets s wid,
      ex.sets.Pairwise (fun a b => a.setNumber ≤ b.setNumber) := by
  constructor
  · refine List.pairwise_map.mpr ((pairwise_sortBy weOrderLe_trans weOrderLe_total _).imp ?_)
    intro a b hab
    simpa [SeqImpl.weOrderLe] using hab
  · intro ex hex
    rcases List.mem_map.mp hex with ⟨p, _, rfl⟩
    refine List.pairwise_map.mpr ((pairwise_sortBy setRowLe_trans setRowLe_total _).imp ?_)
    intro a b hab
    simpa [SeqImpl.setRowLe, projSet] using hab

/-- C2: in every result of either `getWorkoutsByDate` implementation,
each workout's exercises are sorted ascending by `order` and each
exercise's sets are sorted ascending by `setNumber`. -/
theorem exercises_and_sets_sorted_ascending (s : Store) (u : String) (d : Nat) :
    (∀ x ∈ WideImpl.getWorkoutsByDate s u d,
      x.exercises.Pairwise (fun a b => a.order ≤ b.order) ∧
      ∀ ex ∈ x.exercises, ex.sets.Pairwise (fun a b => a.setNumber ≤ b.setNumber)) ∧
    (∀ x ∈ SeqImpl.getWorkoutsByDate s u d,
      x.exercises.Pairwise (fun a b => a.order ≤ b.order) ∧
      ∀ ex ∈ x.exercises, ex.sets.Pairwise (fun a b => a.setNumber ≤ b.setNumber)) := by
  constructor
  · intro x hx
    rcases List.mem_map.mp hx with ⟨g, _, rfl⟩
    exact finalizeGroup_sorted g
  · intro x hx
    simp only [SeqImpl.getWorkoutsByDate] at hx
    split at hx
    · exact absurd hx (List.not_mem_nil x)
    · rcases List.mem_map.mp hx with ⟨w, _, rfl⟩
      exact exercisesWithSets_sorted s w.id

/-- C2 witness: a workout with exercises inserted with orders [2, 1] is
returned sorted [1, 2], and sets inserted with setNumbers [3, 1, 2] are
returned sorted [1, 2, 3], in both implementations. -/
theorem exercises_and_sets_sorted_ascending_witness :
    ((∀ x ∈ WideImpl.getWorkoutsByDate ⟨[⟨1, "u", none, 100, none⟩],
        [⟨20, 1, 10, 2⟩, ⟨21, 1, 11, 1⟩],
        [⟨10, "squat", none, none⟩, ⟨11, "bench", none, none⟩],
        [⟨30, 20, 3, none, 5, none⟩, ⟨31, 20, 1, none, 8, none⟩,
          ⟨32, 20, 2, none, 6, none⟩]⟩ "u" 100,
      x.exercises.Pairwise (fun a b => a.order ≤ b.order) ∧
      ∀ ex ∈ x.exercises, ex.sets.Pairwise (fun a b => a.setNumber ≤ b.setNumber)) ∧
    (∀ x ∈ SeqImpl.getWorkoutsByDate ⟨[⟨1, "u", none, 100, none⟩],
        [⟨20, 1, 10, 2⟩, ⟨21, 1, 11, 1⟩],
        [⟨10, "squat", none, none⟩, ⟨11, "bench", none, none⟩],
        [⟨30, 20, 3, none, 5, none⟩, ⟨31, 20, 1, none, 8, none⟩,
          ⟨32, 20, 2, none, 6, none⟩]⟩ "u" 100,
      x.exercises.Pairwise (fun a b => a.order ≤ b.order) ∧
      ∀ ex ∈ x.exercises, ex.sets.Pairwise (fun a b => a.setNumber ≤ b.setNumber))) ∧
    (WideImpl.getWorkoutsByDate ⟨[⟨1, "u", none, 100, none⟩],
        [⟨20, 1, 10, 2⟩, ⟨21, 1, 11, 1⟩],
        [⟨10, "squat", none, none⟩, ⟨11, "bench", none, none⟩],
        [⟨30, 20, 3, none, 5, none⟩, ⟨31, 20, 1, none, 8, none⟩,
          ⟨32, 20, 2, none, 6, none⟩]⟩ "u" 100).map
      (fun x => x.exercises.map ExerciseWithSets.order) = [[1, 2]] ∧
    (SeqImpl.getWorkoutsByDate ⟨[⟨1, "u", none, 100, none⟩],
        [⟨20, 1, 10, 2⟩, ⟨21, 1, 11, 1⟩],
        [⟨10, "squat", none, none⟩, ⟨11, "bench", none, none⟩],
        [⟨30, 20, 3, none, 5, none⟩, ⟨31, 20, 1, none, 8, none⟩,
          ⟨32, 20, 2, none, 6, none⟩]⟩ "u" 100).map
      (fun x => x.exercises.map ExerciseWithSets.order) = [[1, 2]] ∧
    (WideImpl.getWorkoutsByDate ⟨[⟨1, "u", none, 100, none⟩],
        [⟨20, 1, 10, 2⟩, ⟨21, 1, 11, 1⟩],
        [⟨10, "squat", none, none⟩, ⟨11, "bench", none, none⟩],
        [⟨30, 20, 3, none, 5, none⟩, ⟨31, 20, 1, none, 8, none⟩,
          ⟨32, 20, 2, none, 6, none⟩]⟩ "u" 100).map
      (fun x => x.exercises.map fun e => e.sets.map SetEntry.setNumber)
      = [[[], [1, 2, 3]]] ∧
    (SeqImpl.getWorkoutsByDate ⟨[⟨1, "u", none, 100, none⟩],
        [⟨20, 1, 10, 2⟩, ⟨21, 1, 11, 1⟩],
        [⟨10, "squat", none, none⟩, ⟨11, "bench", none, none⟩],
        [⟨30, 20, 3, none, 5, none⟩, ⟨31, 20, 1, none, 8, none⟩,
          ⟨32, 20, 2, none, 6, none⟩]⟩ "u" 100).map
      (fun x => x.exercises.map fun e => e.sets.map SetEntry.setNumber)
      = [[[], [1, 2, 3]]] :=
  ⟨exercises_and_sets_sorted_ascending ⟨[⟨1, "u", none, 100, none⟩],
      [⟨20, 1, 10, 2⟩, ⟨21, 1, 11, 1⟩],
      [⟨10, "squat", none, none⟩, ⟨11, "bench", none, none⟩],
      [⟨30, 20, 3, none, 5, none⟩, ⟨31, 20, 1, none, 8, none⟩,
        ⟨32, 20, 2, none, 6, none⟩]⟩ "u" 100,
    by decide, by decide, by decide, by decide⟩

/-- Helper: the left component of a left-join row is a row of the left
table. -/
theorem left_mem_of_mem_leftJoin {xs : List α} {ys : List β} {c : α → β → Bool} :
    ∀ p ∈ leftJoin xs ys c, p.1 ∈ xs := by
  intro p hp
  unfold leftJoin at hp
  rcases List.mem_flatMap.mp hp with ⟨a, ha, hpa⟩
  cases hf : ys.filter (fun b => c a b) with
  | nil =>
    rw [hf] at hpa
    simp at hpa
    subst hpa
    exact ha
  | cons z zs =>
    rw [hf] at hpa
    rcases List.mem_map.mp hpa with ⟨b, _, rfl⟩
    exact ha

/-- Helper: every group after one `addRow` step carries either a workout
already in the accumulator or the processed row's workout. -/
theorem addRow_workout (acc : List WGroup) (r : WorkoutRow) :
    ∀ g ∈ addRow acc r, (∃ g₀ ∈ acc, g.workout = g₀.workout) ∨ g.workout = r.workout := by
  intro g hg
  unfold addRow at hg
  have hacc' : ∀ g' ∈ (if acc.any (fun g => g.workout.id == r.workout.id) then acc
      else acc ++ [⟨r.workout, []⟩]),
      (∃ g₀ ∈ acc, g'.workout = g₀.workout) ∨ g'.workout = r.workout := by
    intro g' hg'
    split at hg'
    · exact Or.inl ⟨g', hg', rfl⟩
    · rcases List.mem_append.mp hg' with h' | h'
      · exact Or.inl ⟨g', h', rfl⟩
      · exact Or.inr (by simp at h'; rw [h'])
  rcases hwe : r.workoutExercise with _ | we <;> rcases hex : r.exercise with _ | ex <;>
    rw [hwe, hex] at hg
  · exact hacc' g hg
  · exact hacc' g hg
  · exact hacc' g hg
  · rcases List.mem_map.mp hg with ⟨g₀, hg₀, rfl⟩
    have hw : (if g₀.workout.id == r.workout.id then
        { g₀ with exercisesMap := addChild g₀.exercisesMap we ex r.set } else g₀).workout
        = g₀.workout := by
      split <;> rfl
    rw [hw]
    exact hacc' g₀ hg₀

/-- Helper: every group built by the transform's fold carries the
workout projection of one of the folded rows. -/
theorem foldl_addRow_workout :
    ∀ (rows : List WorkoutRow) (acc : List WGroup), ∀ g ∈ rows.foldl addRow acc,
      (∃ g₀ ∈ acc, g.workout = g₀.workout) ∨ ∃ r ∈ rows, g.workout = r.workout := by
  intro rows
  induction rows with
  | nil =>
    intro acc g hg
    exact Or.inl ⟨g, hg, rfl⟩
  | cons r rows ih =>
    intro acc g hg
    simp only [List.foldl_cons] at hg
    rcases ih (addRow acc r) g hg with ⟨g₀, hg₀, he⟩ | ⟨r', hr', he⟩
    · rcases addRow_workout acc r g₀ hg₀ with ⟨g₁, hg₁, he₁⟩ | he₁
      · exact Or.inl ⟨g₁, hg₁, he.trans he₁⟩
      · exact Or.inr ⟨r, List.mem_cons_self r rows, he.trans he₁⟩
    · exact Or.inr ⟨r', List.mem_cons_of_mem r hr', he⟩

/-- Helper: restricting the right table of an inner join is invisible to
any post-filter that itself implies the restriction. -/
theorem innerJoin_filter_right (xs : List α) (ys : List β) (c : α → β → Bool)
    (r : β → Bool) (q : α × β → Bool) (hq : ∀ a b, q (a, b) → r b) :
    (innerJoin xs (ys.filter r) c).filter q = (innerJoin xs ys c).filter q := by
  induction xs with
  | nil => rfl
  | cons a xs ih =>
    show (((ys.filter r).filter (fun b => c a b)).map (fun b => (a, b))
        ++ innerJoin xs (ys.filter r) c).filter q = _
    rw [List.filter_append, ih]
    show _ = ((ys.filter (fun b => c a b)).map (fun b => (a, b))
        ++ innerJoin xs ys c).filter q
    rw [List.filter_append]
    congr 1
    rw [List.filter_map, List.filter_map, List.filter_filter, List.filter_filter,
      List.filter_filter]
    congr 1
    apply List.filter_congr
    intro b _
    show ((q ∘ fun b => (a, b)) b && c a b && r b) = ((q ∘ fun b => (a, b)) b && c a b)
    cases hqb : q (a, b)
    · simp [Function.comp, hqb]
    · simp [Function.comp, hqb, hq a b hqb]

/-- Helper: the owner filter is idempotent. -/
theorem filter_userId_idem (l : List Workout) (u : String) :
    (l.filter fun w => w.userId == u).filter (fun w => w.userId == u)
      = l.filter fun w => w.userId == u := by
  rw [List.filter_filter]
  apply List.filter_congr
  intro w _
  cases h : w.userId == u <;> simp [h]

/-- Helper: `getWorkoutSummary` is unchanged when the workouts table is
restricted to the requesting user's rows first — every count and
recent-workout entry is derived only from owner-rooted rows. -/
theorem summary_restrict_eq (s : Store) (u : String) (today : Nat) :
    getWorkoutSummary s u today = getWorkoutSummary (restrictToUser s u) u today := by
  unfold getWorkoutSummary restrictToUser totalWorkoutsQuery recentWorkoutsQuery
    exercisesCountQuery setsCountQuery
  simp only [filter_userId_idem]
  rw [innerJoin_filter_right s.workoutExercises s.workouts _ (fun w => w.userId == u) _
    (by intro a b h; exact (Bool.and_eq_true _ _ |>.mp h).1)]
  rw [innerJoin_filter_right
    (innerJoin s.sets s.workoutExercises fun st we => st.workoutExerciseId == we.id)
    s.workouts _ (fun w => w.userId == u) _
    (by intro a b h; exact (Bool.and_eq_true _ _ |>.mp h).1)]

/-- C1: every workout returned by either `getWorkoutsByDate`
implementation is one of the requesting user's stored workouts for the
requested date, and `getWorkoutSummary` is derived only from rows whose
root workout belongs to the requesting user. -/
theorem owner_scoping_reads_and_summary (s : Store) (u : String) (d today : Nat) :
    (∀ x ∈ WideImpl.getWorkoutsByDate s u d,
      ∃ w ∈ s.workouts, w.userId = u ∧ w.date = d ∧ x.id = w.id) ∧
    (∀ x ∈ SeqImpl.getWorkoutsByDate s u d,
      ∃ w ∈ s.workouts, w.userId = u ∧ w.date = d ∧ x.id = w.id) ∧
    getWorkoutSummary s u today = getWorkoutSummary (restrictToUser s u) u today := by
  refine ⟨?_, ?_, summary_restrict_eq s u today⟩
  · intro x hx
    simp only [WideImpl.getWorkoutsByDate, transformToWorkoutWithExercises] at hx
    rcases List.mem_map.mp hx with ⟨g, hg, rfl⟩
    rcases foldl_addRow_workout _ [] g hg with ⟨g₀, hg₀, _⟩ | ⟨r, hr, he⟩
    · exact absurd hg₀ (List.not_mem_nil g₀)
    · simp only [WideImpl.rowsFor] at hr
      rw [mem_sortBy] at hr
      rcases List.mem_map.mp hr with ⟨p, hp, rfl⟩
      rw [List.mem_filter] at hp
      have hw : p.1.1.1 ∈ s.workouts :=
        left_mem_of_mem_leftJoin _ (left_mem_of_mem_leftJoin _
          (left_mem_of_mem_leftJoin _ hp.1))
      rcases Bool.and_eq_true _ _ |>.mp hp.2 with ⟨hu, hd⟩
      refine ⟨p.1.1.1, hw, by simpa using hu, by simpa using hd, ?_⟩
      show g.workout.id = p.1.1.1.id
      rw [he]
      rfl
  · intro x hx
    simp only [SeqImpl.getWorkoutsByDate] at hx
    split at hx
    · exact absurd hx (List.not_mem_nil x)
    · rcases List.mem_map.mp hx with ⟨w, hw, rfl⟩
      rw [List.mem_filter] at hw
      rcases Bool.and_eq_true _ _ |>.mp hw.2 with ⟨hu, hd⟩
      exact ⟨w, hw.1, by simpa using hu, by simpa using hd, rfl⟩

/-- C1 witness: in a store holding workouts of users "u" and "v", reads
and the summary for "u" only see "u"-rooted rows. -/
theorem owner_scoping_reads_and_summary_witness :
    ((∀ x ∈ WideImpl.getWorkoutsByDate ⟨[⟨1, "u", none, 100, none⟩,
        ⟨2, "v", none, 100, none⟩], [⟨20, 1, 10, 1⟩, ⟨21, 2, 10, 1⟩],
        [⟨10, "squat", none, none⟩],
        [⟨30, 20, 1, none, 5, none⟩, ⟨31, 21, 1, none, 5, none⟩]⟩ "u" 100,
      ∃ w ∈ ([⟨1, "u", none, 100, none⟩, ⟨2, "v", none, 100, none⟩] : List Workout),
        w.userId = "u" ∧ w.date = 100 ∧ x.id = w.id) ∧
    (∀ x ∈ SeqImpl.getWorkoutsByDate ⟨[⟨1, "u", none, 100, none⟩,
        ⟨2, "v", none, 100, none⟩], [⟨20, 1, 10, 1⟩, ⟨21, 2, 10, 1⟩],
        [⟨10, "squat", none, none⟩],
        [⟨30, 20, 1, none, 5, none⟩, ⟨31, 21, 1, none, 5, none⟩]⟩ "u" 100,
      ∃ w ∈ ([⟨1, "u", none, 100, none⟩, ⟨2, "v", none, 100, none⟩] : List Workout),
        w.userId = "u" ∧ w.date = 100 ∧ x.id = w.id) ∧
    getWorkoutSummary ⟨[⟨1, "u", none, 100, none⟩, ⟨2, "v", none, 100, none⟩],
        [⟨20, 1, 10, 1⟩, ⟨21, 2, 10, 1⟩], [⟨10, "squat", none, none⟩],
        [⟨30, 20, 1, none, 5, none⟩, ⟨31, 21, 1, none, 5, none⟩]⟩ "u" 130
      = getWorkoutSummary (restrictToUser ⟨[⟨1, "u", none, 100, none⟩,
        ⟨2, "v", none, 100, none⟩], [⟨20, 1, 10, 1⟩, ⟨21, 2, 10, 1⟩],
        [⟨10, "squat", none, none⟩],
        [⟨30, 20, 1, none, 5, none⟩, ⟨31, 21, 1, none, 5, none⟩]⟩ "u") "u" 130) ∧
    (WideImpl.getWorkoutsByDate ⟨[⟨1, "u", none, 100, none⟩,
        ⟨2, "v", none, 100, none⟩], [⟨20, 1, 10, 1⟩, ⟨21, 2, 10, 1⟩],
        [⟨10, "squat", none, none⟩],
        [⟨30, 20, 1, none, 5, none⟩, ⟨31, 21, 1, none, 5, none⟩]⟩ "u" 100).map
      WorkoutWithExercises.id = [1] ∧
    (getWorkoutSummary ⟨[⟨1, "u", none, 100, none⟩, ⟨2, "v", none, 100, none⟩],
        [⟨20, 1, 10, 1⟩, ⟨21, 2, 10, 1⟩], [⟨10, "squat", none, none⟩],
        [⟨30, 20, 1, none, 5, none⟩, ⟨31, 21, 1, none, 5, none⟩]⟩ "u"
        130).totalWorkouts = 1 :=
  ⟨owner_scoping_reads_and_summary ⟨[⟨1, "u", none, 100, none⟩,
      ⟨2, "v", none, 100, none⟩], [⟨20, 1, 10, 1⟩, ⟨21, 2, 10, 1⟩],
      [⟨10, "squat", none, none⟩],
      [⟨30, 20, 1, none, 5, none⟩, ⟨31, 21, 1, none, 5, none⟩]⟩ "u" 100 130,
    by decide, by decide⟩

/-- Helper: the right component of a left-join row is null or a
matching right-table row. -/
theorem right_of_mem_leftJoin {xs : List α} {ys : List β} {c : α → β → Bool} :
    ∀ p ∈ leftJoin xs ys c, p.2 = none ∨ ∃ b ∈ ys, p.2 = some b ∧ c p.1 b := by
  intro p hp
  unfold leftJoin at hp
  rcases List.mem_flatMap.mp hp with ⟨a, _, hpa⟩
  cases hf : ys.filter (fun b => c a b) with
  | nil =>
    rw [hf] at hpa
    simp at hpa
    subst hpa
    exact Or.inl rfl
  | cons z zs =>
    rw [hf] at hpa
    rcases List.mem_map.mp hpa with ⟨b, hb, rfl⟩
    have hb' : b ∈ ys.filter (fun b => c a b) := hf ▸ hb
    rcases List.mem_filter.mp hb' with ⟨hbys, hcb⟩
    exact Or.inr ⟨b, hbys, rfl, hcb⟩

/-- Helper: a left row with no matching right row contributes its null
row to the left join. -/
theorem mem_leftJoin_of_no_match {xs : List α} {ys : List β} {c : α → β → Bool}
    {a : α} (ha : a ∈ xs) (hf : ys.filter (fun b => c a b) = []) :
    (a, (none : Option β)) ∈ leftJoin xs ys c := by
  unfold leftJoin
  refine List.mem_flatMap.mpr ⟨a, ha, ?_⟩
  rw [hf]
  exact List.mem_singleton.mpr rfl

/-- Helper: in a list with pairwise-distinct keys, two members with the
same key are the same element. -/
theorem eq_of_mem_of_pairwise_ne {l : List α} {f : α → β}
    (h : l.Pairwise fun a b => f a ≠ f b) :
    ∀ a ∈ l, ∀ b ∈ l, f a = f b → a = b := by
  intro a ha b hb hf
  by_cases hab : a = b
  · exact hab
  · have := List.Pairwise.forall (fun x y hxy => (hxy ∘ Eq.symm : f y ≠ f x)) h ha hb hab
    exact absurd hf this

theorem addRow_preserves_other (acc : List WGroup) (r : WorkoutRow) :
    ∀ g ∈ acc, g.workout.id ≠ r.workout.id → g ∈ addRow acc r := by
  intro g hg hne
  unfold addRow
  have hacc' : g ∈ (if acc.any (fun g => g.workout.id == r.workout.id) then acc
      else acc ++ [⟨r.workout, []⟩]) := by
    split
    · exact hg
    · exact List.mem_append_left _ hg
  rcases r.workoutExercise with _ | we
  · exact hacc'
  · rcases r.exercise with _ | ex
    · exact hacc'
    · refine List.mem_map.mpr ⟨g, hacc', ?_⟩
      rw [if_neg (by simpa using hne)]

/-- Helper: a group whose workout id differs from the processed row's
was already in the accumulator. -/
theorem addRow_mem_other (acc : List WGroup) (r : WorkoutRow) :
    ∀ g ∈ addRow acc r, g.workout.id ≠ r.workout.id → g ∈ acc := by
  intro g hg hne
  unfold addRow at hg
  have hacc' : ∀ g' ∈ (if acc.any (fun g => g.workout.id == r.workout.id) then acc
      else acc ++ [⟨r.workout, []⟩]), g'.workout.id ≠ r.workout.id → g' ∈ acc := by
    intro g' hg' hne'
    split at hg'
    · exact hg'
    · rcases List.mem_append.mp hg' with h | h
      · exact h
      · simp at h
        rw [h] at hne'
        exact absurd rfl hne'
  rcases hwe : r.workoutExercise with _ | we <;> rcases hex : r.exercise with _ | ex <;>
    rw [hwe, hex] at hg
  · exact hacc' g hg hne
  · exact hacc' g hg hne
  · exact hacc' g hg hne
  · rcases List.mem_map.mp hg with ⟨g₀, hg₀, rfl⟩
    by_cases hid : (g₀.workout.id == r.workout.id) = true
    · rw [if_pos hid] at hne
      exact absurd (beq_iff_eq.mp hid) hne
    · rw [if_neg hid] at hne ⊢
      exact hacc' g₀ hg₀ hne

/-- Helper: `addRow` keeps every accumulated group's workout, and keeps
a group's children empty when the row belongs to another workout. -/
theorem addRow_workout_of_mem (acc : List WGroup) (r : WorkoutRow) :
    ∀ g ∈ acc, ∃ g' ∈ addRow acc r, g'.workout = g.workout ∧
      (g.exercisesMap = [] → g.workout.id ≠ r.workout.id → g'.exercisesMap = []) := by
  intro g hg
  unfold addRow
  have hacc' : g ∈ (if acc.any (fun g => g.workout.id == r.workout.id) then acc
      else acc ++ [⟨r.workout, []⟩]) := by
    split
    · exact hg
    · exact List.mem_append_left _ hg
  rcases r.workoutExercise with _ | we
  · exact ⟨g, hacc', rfl, fun h _ => h⟩
  · rcases r.exercise with _ | ex
    · exact ⟨g, hacc', rfl, fun h _ => h⟩
    · by_cases hid : (g.workout.id == r.workout.id) = true
      · refine ⟨⟨g.workout, addChild g.exercisesMap we ex r.set⟩,
          List.mem_map.mpr ⟨g, hacc', by rw [if_pos hid]⟩, rfl, ?_⟩
        intro _ hne
        exact absurd (beq_iff_eq.mp hid) hne
      · exact ⟨g, List.mem_map.mpr ⟨g, hacc', by rw [if_neg hid]⟩, rfl, fun h _ => h⟩

/-- Helper: if every row of a given workout id is a left-join miss
(null workout-exercise or exercise), the fold produces that workout's
group with an empty exercises map. -/
theorem foldl_addRow_null_rows (wp : WProj) :
    ∀ (rows : List WorkoutRow) (acc : List WGroup),
      (∀ g ∈ acc, g.workout.id = wp.id → g.workout = wp ∧ g.exercisesMap = []) →
      ((∃ g ∈ acc, g.workout.id = wp.id) ∨ (∃ r ∈ rows, r.workout.id = wp.id)) →
      (∀ r ∈ rows, r.workout.id = wp.id →
        r.workout = wp ∧ (r.workoutExercise = none ∨ r.exercise = none)) →
      ∃ g ∈ rows.foldl addRow acc, g.workout = wp ∧ g.exercisesMap = [] := by
  intro rows
  induction rows with
  | nil =>
    intro acc hinv hex _
    rcases hex with ⟨g, hg, hid⟩ | ⟨r, hr, _⟩
    · exact ⟨g, hg, hinv g hg hid⟩
    · exact absurd hr (List.not_mem_nil r)
  | cons r rows ih =>
    intro acc hinv hex hnull
    simp only [List.foldl_cons]
    have hinv' : ∀ g ∈ addRow acc r, g.workout.id = wp.id →
        g.workout = wp ∧ g.exercisesMap = [] := by
      by_cases hid : r.workout.id = wp.id
      · obtain ⟨hwp, hchild⟩ := hnull r (List.mem_cons_self r rows) hid
        have haddeq : addRow acc r = if acc.any (fun g => g.workout.id == r.workout.id)
            then acc else acc ++ [⟨r.workout, []⟩] := by
          unfold addRow
          rcases hchild with h | h
          · rw [h]
          · rw [h]
            rcases r.workoutExercise with _ | we <;> rfl
        rw [haddeq]
        split
        · exact hinv
        · intro g hg hgid
          rcases List.mem_append.mp hg with h | h
          · exact hinv g h hgid
          · simp at h
            rw [h, hwp]
            exact ⟨rfl, rfl⟩
      · intro g hg hgid
        exact hinv g (addRow_mem_other acc r g hg (by rw [hgid]; exact fun h => hid h.symm)) hgid
    have hex' : (∃ g ∈ addRow acc r, g.workout.id = wp.id) ∨
        ∃ r' ∈ rows, r'.workout.id = wp.id := by
      by_cases hid : r.workout.id = wp.id
      · obtain ⟨hwp, hchild⟩ := hnull r (List.mem_cons_self r rows) hid
        have haddeq : addRow acc r = if acc.any (fun g => g.workout.id == r.workout.id)
            then acc else acc ++ [⟨r.workout, []⟩] := by
          unfold addRow
          rcases hchild with h | h
          · rw [h]
          · rw [h]
            rcases r.workoutExercise with _ | we <;> rfl
        refine Or.inl ?_
        rw [haddeq]
        split
        next hany =>
          rcases List.any_eq_true.mp hany with ⟨g, hg, hgid⟩
          exact ⟨g, hg, (beq_iff_eq.mp hgid).trans hid⟩
        next hany =>
          exact ⟨⟨r.workout, []⟩, List.mem_append_right _ (List.mem_singleton.mpr rfl), hid⟩
      · rcases hex with ⟨g, hg, hgid⟩ | ⟨r', hr', hrid⟩
        · rcases addRow_workout_of_mem acc r g hg with ⟨g', hg', hgw, _⟩
          exact Or.inl ⟨g', hg', by rw [hgw]; exact hgid⟩
        · rcases List.mem_cons.mp hr' with rfl | hr''
          · exact absurd hrid hid
          · exact Or.inr ⟨r', hr'', hrid⟩
    exact ih (addRow acc r) hinv' hex'
      (fun r' hr' => hnull r' (List.mem_cons_of_mem r hr'))

/-- Helper: every inner-map entry after `addChild` is an old entry or
the added workout-exercise/exercise pair. -/
theorem addChild_entry (m : List ExGroup) (we : WEProj) (ex : ExProj) (st : Option SetEntry) :
    ∀ e ∈ addChild m we ex st,
      (∃ e₀ ∈ m, e.workoutExercise = e₀.workoutExercise ∧ e.exercise = e₀.exercise) ∨
      (e.workoutExercise = we ∧ e.exercise = ex) := by
  intro e he
  unfold addChild at he
  have hm' : ∀ e' ∈ (if m.any (fun g => g.workoutExercise.id == we.id) then m
      else m ++ [⟨we, ex, []⟩]),
      (e' ∈ m) ∨ (e'.workoutExercise = we ∧ e'.exercise = ex) := by
    intro e' he'
    split at he'
    · exact Or.inl he'
    · rcases List.mem_append.mp he' with h | h
      · exact Or.inl h
      · simp at h
        rw [h]
        exact Or.inr ⟨rfl, rfl⟩
  rcases st with _ | s0
  · rcases hm' e he with h | h
    · exact Or.inl ⟨e, h, rfl, rfl⟩
    · exact Or.inr h
  · rcases List.mem_map.mp he with ⟨e₀, he₀, rfl⟩
    have hpres : (if e₀.workoutExercise.id == we.id then
          { e₀ with sets := e₀.sets ++ [s0] } else e₀).workoutExercise = e₀.workoutExercise ∧
        (if e₀.workoutExercise.id == we.id then
          { e₀ with sets := e₀.sets ++ [s0] } else e₀).exercise = e₀.exercise := by
      split <;> exact ⟨rfl, rfl⟩
    rcases hm' e₀ he₀ with h | h
    · exact Or.inl ⟨e₀, h, hpres.1, hpres.2⟩
    · exact Or.inr ⟨hpres.1.trans h.1, hpres.2.trans h.2⟩

/-- Helper: every child entry after one `addRow` step is an old entry
or comes from the row's non-null workout-exercise and exercise. -/
theorem addRow_entry (acc : List WGroup) (r : WorkoutRow) :
    ∀ g ∈ addRow acc r, ∀ e ∈ g.exercisesMap,
      (∃ g₀ ∈ acc, ∃ e₀ ∈ g₀.exercisesMap,
        e.workoutExercise = e₀.workoutExercise ∧ e.exercise = e₀.exercise) ∨
      (r.workoutExercise = some e.workoutExercise ∧ r.exercise = some e.exercise) := by
  intro g hg e he
  unfold addRow at hg
  have hacc' : ∀ g' ∈ (if acc.any (fun g => g.workout.id == r.workout.id) then acc
      else acc ++ [⟨r.workout, []⟩]), ∀ e' ∈ g'.exercisesMap,
      ∃ g₀ ∈ acc, ∃ e₀ ∈ g₀.exercisesMap,
        e'.workoutExercise = e₀.workoutExercise ∧ e'.exercise = e₀.exercise := by
    intro g' hg' e' he'
    split at hg'
    · exact ⟨g', hg', e', he', rfl, rfl⟩
    · rcases List.mem_append.mp hg' with h | h
      · exact ⟨g', h, e', he', rfl, rfl⟩
      · simp at h
        rw [h] at he'
        exact absurd he' (List.not_mem_nil e')
  rcases hwe : r.workoutExercise with _ | we <;> rcases hex : r.exercise with _ | ex <;>
    rw [hwe, hex] at hg
  · exact Or.inl (hacc' g hg e he)
  · exact Or.inl (hacc' g hg e he)
  · exact Or.inl (hacc' g hg e he)
  · rcases List.mem_map.mp hg with ⟨g₀, hg₀, rfl⟩
    by_cases hid : (g₀.workout.id == r.workout.id) = true
    · rw [if_pos hid] at he
      rcases addChild_entry g₀.exercisesMap we ex r.set e he with ⟨e₀, he₀, hp⟩ | ⟨h1, h2⟩
      · rcases hacc' g₀ hg₀ e₀ he₀ with ⟨g₁, hg₁, e₁, he₁, hq⟩
        exact Or.inl ⟨g₁, hg₁, e₁, he₁, hp.1.trans hq.1, hp.2.trans hq.2⟩
      · exact Or.inr ⟨by rw [h1], by rw [h2]⟩
    · rw [if_neg hid] at he
      exact Or.inl (hacc' g₀ hg₀ e he)

/-- Helper: every child entry built by the transform's fold comes from
a row whose workout-exercise and exercise columns are non-null. -/
theorem foldl_addRow_entry :
    ∀ (rows : List WorkoutRow) (acc : List WGroup), ∀ g ∈ rows.foldl addRow acc,
      ∀ e ∈ g.exercisesMap,
      (∃ g₀ ∈ acc, ∃ e₀ ∈ g₀.exercisesMap,
        e.workoutExercise = e₀.workoutExercise ∧ e.exercise = e₀.exercise) ∨
      (∃ r ∈ rows, r.workoutExercise = some e.workoutExercise ∧
        r.exercise = some e.exercise) := by
  intro rows
  induction rows with
  | nil =>
    intro acc g hg e he
    exact Or.inl ⟨g, hg, e, he, rfl, rfl⟩
  | cons r rows ih =>
    intro acc g hg e he
    simp only [List.foldl_cons] at hg
    rcases ih (addRow acc r) g hg e he with ⟨g₀, hg₀, e₀, he₀, hp⟩ | ⟨r', hr', hp⟩
    · rcases addRow_entry acc r g₀ hg₀ e₀ he₀ with ⟨g₁, hg₁, e₁, he₁, hq⟩ | ⟨h1, h2⟩
      · exact Or.inl ⟨g₁, hg₁, e₁, he₁, hp.1.trans hq.1, hp.2.trans hq.2⟩
      · exact Or.inr ⟨r, List.mem_cons_self r rows, by rw [h1, hp.1], by rw [h2, hp.2]⟩
    · exact Or.inr ⟨r', List.mem_cons_of_mem r hr', hp⟩

/-- C3: a matched workout with zero workout-exercises is still returned
by the wide implementation, with `exercises = []`; and every exercise
entry produced by the row-to-tree transform comes from a row whose
workout-exercise and exercise columns are both non-null, so an all-null
left-join-miss row never contributes a child entry. -/
theorem empty_workout_included_no_spurious_children (s : Store) (u : String) (d : Nat) :
    ((s.workouts.Pairwise fun a b => a.id ≠ b.id) →
      ∀ w ∈ s.workouts, w.userId = u → w.date = d →
        (∀ we ∈ s.workoutExercises, we.workoutId ≠ w.id) →
        ∃ x ∈ WideImpl.getWorkoutsByDate s u d,
          x = ⟨w.id, w.name, w.date, w.notes, []⟩) ∧
    (∀ rows : List WorkoutRow, ∀ x ∈ transformToWorkoutWithExercises rows,
      ∀ e ∈ x.exercises, ∃ r ∈ rows,
        r.workoutExercise = some ⟨e.id, e.order⟩ ∧ r.exercise = some e.exercise) := by
  constructor
  · intro hids w hw hu hd hnowe
    have h1 : (w, (none : Option WorkoutExercise)) ∈
        leftJoin s.workouts s.workoutExercises (fun w we => we.workoutId == w.id) :=
      mem_leftJoin_of_no_match hw (List.filter_eq_nil_iff.mpr (fun we hwe => by
        simpa using hnowe we hwe))
    have h2 : (((w, (none : Option WorkoutExercise)), (none : Option Exercise))) ∈
        leftJoin (leftJoin s.workouts s.workoutExercises (fun w we => we.workoutId == w.id))
          s.exercises (fun p e => match p.2 with
            | some we => e.id == we.exerciseId
            | none => false) :=
      mem_leftJoin_of_no_match h1 (List.filter_eq_nil_iff.mpr (fun e _ => by simp))
    have h3 : ((((w, (none : Option WorkoutExercise)), (none : Option Exercise)),
        (none : Option SetRow))) ∈ WideImpl.joined s :=
      mem_leftJoin_of_no_match h2 (List.filter_eq_nil_iff.mpr (fun st _ => by simp))
    have hrow : (⟨projW w, none, none, none⟩ : WorkoutRow) ∈ WideImpl.rowsFor s u d := by
      simp only [WideImpl.rowsFor]
      rw [mem_sortBy]
      exact List.mem_map.mpr ⟨(((w, none), none), none),
        List.mem_filter.mpr ⟨h3, by simp [hu, hd]⟩, rfl⟩
    have hnull : ∀ r ∈ WideImpl.rowsFor s u d, r.workout.id = (projW w).id →
        r.workout = projW w ∧ (r.workoutExercise = none ∨ r.exercise = none) := by
      intro r hr hrid
      simp only [WideImpl.rowsFor] at hr
      rw [mem_sortBy] at hr
      rcases List.mem_map.mp hr with ⟨p, hp, rfl⟩
      rw [List.mem_filter] at hp
      have hpw : p.1.1.1 ∈ s.workouts :=
        left_mem_of_mem_leftJoin _ (left_mem_of_mem_leftJoin _
          (left_mem_of_mem_leftJoin _ hp.1))
      have hpeq : p.1.1.1 = w :=
        eq_of_mem_of_pairwise_ne hids p.1.1.1 hpw w hw hrid
      refine ⟨by rw [show (WideImpl.toRow p).workout = projW p.1.1.1 from rfl, hpeq], ?_⟩
      have hp11 : p.1.1 ∈ leftJoin s.workouts s.workoutExercises
          (fun w we => we.workoutId == w.id) :=
        left_mem_of_mem_leftJoin _ (left_mem_of_mem_leftJoin _ hp.1)
      rcases right_of_mem_leftJoin p.1.1 hp11 with hn | ⟨we, hwe, hsome, hcond⟩
      · left
        show p.1.1.2.map projWE = none
        rw [hn]
        rfl
      · exfalso
        rw [hpeq] at hcond
        exact hnowe we hwe (by simpa using hcond)
    obtain ⟨g, hgfold, hgw, hgmap⟩ :=
      foldl_addRow_null_rows (projW w) (WideImpl.rowsFor s u d) []
        (by intro g hg; exact absurd hg (List.not_mem_nil g))
        (Or.inr ⟨⟨projW w, none, none, none⟩, hrow, rfl⟩) hnull
    refine ⟨finalizeGroup g, List.mem_map.mpr ⟨g, hgfold, rfl⟩, ?_⟩
    simp [finalizeGroup, hgw, hgmap, sortBy, projW]
  · intro rows x hx e he
    rcases List.mem_map.mp hx with ⟨g, hg, rfl⟩
    rcases List.mem_map.mp he with ⟨e₀, he₀, rfl⟩
    have he₀' : e₀ ∈ g.exercisesMap := mem_sortBy.mp he₀
    rcases foldl_addRow_entry rows [] g hg e₀ he₀' with ⟨g₀, hg₀, _⟩ | ⟨r, hr, hp1, hp2⟩
    · exact absurd hg₀ (List.not_mem_nil g₀)
    · exact ⟨r, hr, hp1, hp2⟩

/-- C3 witness: workout 1 has no workout-exercises and is returned with
an empty exercises list alongside workout 2 which has one. -/
theorem empty_workout_included_no_spurious_children_witness :
    ((([⟨1, "u", none, 100, none⟩, ⟨2, "u", none, 100, none⟩] : List Workout).Pairwise
        fun a b => a.id ≠ b.id) →
      ∀ w ∈ ([⟨1, "u", none, 100, none⟩, ⟨2, "u", none, 100, none⟩] : List Workout),
        w.userId = "u" → w.date = 100 →
        (∀ we ∈ ([⟨20, 2, 10, 1⟩] : List WorkoutExercise), we.workoutId ≠ w.id) →
        ∃ x ∈ WideImpl.getWorkoutsByDate ⟨[⟨1, "u", none, 100, none⟩,
            ⟨2, "u", none, 100, none⟩], [⟨20, 2, 10, 1⟩], [⟨10, "squat", none, none⟩],
            []⟩ "u" 100,
          x = ⟨w.id, w.name, w.date, w.notes, []⟩) ∧
    ((WideImpl.getWorkoutsByDate ⟨[⟨1, "u", none, 100, none⟩,
        ⟨2, "u", none, 100, none⟩], [⟨20, 2, 10, 1⟩], [⟨10, "squat", none, none⟩],
        []⟩ "u" 100).map (fun x => (x.id, x.exercises.length)) = [(1, 0), (2, 1)]) :=
  ⟨(empty_workout_included_no_spurious_children ⟨[⟨1, "u", none, 100, none⟩,
      ⟨2, "u", none, 100, none⟩], [⟨20, 2, 10, 1⟩], [⟨10, "squat", none, none⟩],
      []⟩ "u" 100).1,
    by decide⟩

theorem leftJoin_eq_flatMap (xs : List α) (ys : List β) (c : α → β → Bool) :
    leftJoin xs ys c
      = xs.flatMap fun a => (optRows (ys.filter fun b => c a b)).map fun b? => (a, b?) := by
  unfold leftJoin optRows
  congr 1
  funext a
  cases ys.filter (fun b => c a b) with
  | nil => rfl
  | cons z zs => simp [List.map_map]

theorem joined_eq_flatMap_wideBlock (s : Store) :
    WideImpl.joined s = s.workouts.flatMap (wideBlock s) := by
  unfold WideImpl.joined wideBlock
  rw [leftJoin_eq_flatMap, leftJoin_eq_flatMap, leftJoin_eq_flatMap]
  simp only [List.flatMap_assoc, List.flatMap_map]

theorem optRows_exists_mem (l : List β) : ∃ b?, b? ∈ optRows l := by
  unfold optRows
  cases l with
  | nil => exact ⟨none, List.mem_singleton.mpr rfl⟩
  | cons x xs => exact ⟨some x, List.mem_map.mpr ⟨x, List.mem_cons_self x xs, rfl⟩⟩

theorem mem_optRows {l : List β} : ∀ b? ∈ optRows l, b? = none ∨ ∃ b ∈ l, b? = some b := by
  unfold optRows
  cases l with
  | nil =>
    intro b? h
    simp at h
    exact Or.inl h
  | cons x xs =>
    intro b? h
    rcases List.mem_map.mp h with ⟨b, hb, rfl⟩
    exact Or.inr ⟨b, hb, rfl⟩

theorem wideBlock_workout (s : Store) (w : Workout) :
    ∀ x ∈ wideBlock s w, x.1.1.1 = w := by
  intro x hx
  unfold wideBlock at hx
  rcases List.mem_flatMap.mp hx with ⟨we?, _, hx⟩
  rcases List.mem_flatMap.mp hx with ⟨e?, _, hx⟩
  rcases List.mem_map.mp hx with ⟨st?, _, rfl⟩
  rfl

theorem wideBlock_ne_nil (s : Store) (w : Workout) : wideBlock s w ≠ [] := by
  unfold wideBlock
  intro hnil
  obtain ⟨we?, hwe⟩ := optRows_exists_mem (s.workoutExercises.filter fun we => we.workoutId == w.id)
  obtain ⟨e?, he⟩ := optRows_exists_mem (s.exercises.filter fun e =>
    match we? with
    | some we => e.id == we.exerciseId
    | none => false)
  obtain ⟨st?, hst⟩ := optRows_exists_mem (s.sets.filter fun st =>
    match we? with
    | some we => st.workoutExerciseId == we.id
    | none => false)
  have : (((w, we?), e?), st?) ∈ ([] : List (((Workout × Option WorkoutExercise) × Option Exercise) × Option SetRow)) := by
    rw [← hnil]
    exact List.mem_flatMap.mpr ⟨we?, hwe, List.mem_flatMap.mpr ⟨e?, he,
      List.mem_map.mpr ⟨st?, hst, rfl⟩⟩⟩
  exact absurd this (List.not_mem_nil _)

theorem filter_const (l : List γ) (q : γ → Bool) (b : Bool) (h : ∀ x ∈ l, q x = b) :
    l.filter q = if b then l else [] := by
  cases b
  · rw [if_neg (by simp)]
    exact List.filter_eq_nil_iff.mpr (fun x hx => by simp [h x hx])
  · rw [if_pos rfl]
    exact List.filter_eq_self.mpr h

theorem flatMap_guard (W : List α) (f : α → List γ) (p : α → Bool) :
    (W.flatMap fun w => if p w then f w else []) = (W.filter p).flatMap f := by
  induction W with
  | nil => rfl
  | cons w W ih =>
    rw [List.flatMap_cons, List.filter_cons, ih]
    by_cases hp : p w = true
    · rw [if_pos hp, if_pos hp, List.flatMap_cons]
    · rw [if_neg hp, if_neg hp, List.nil_append]

theorem rowsFor_eq (s : Store) (u : String) (d : Nat) :
    WideImpl.rowsFor s u d = sortBy WideImpl.rowLe
      ((s.workouts.filter fun w => w.userId == u && w.date == d).flatMap
        fun w => (wideBlock s w).map WideImpl.toRow) := by
  unfold WideImpl.rowsFor
  congr 1
  rw [joined_eq_flatMap_wideBlock, List.filter_flatMap]
  have hblocks : (s.workouts.flatMap fun w =>
      (wideBlock s w).filter fun x => x.1.1.1.userId == u && x.1.1.1.date == d)
      = s.workouts.flatMap fun w =>
        if w.userId == u && w.date == d then wideBlock s w else [] := by
    apply List.flatMap_congr
    intro w _
    exact filter_const _ _ _ (fun x hx => by rw [wideBlock_workout s w x hx])
  rw [hblocks, flatMap_guard, List.map_flatMap]

theorem optIntLe_trans : ∀ a b c : Option Int,
    WideImpl.optIntLe a b → WideImpl.optIntLe b c → WideImpl.optIntLe a c := by
  intro a b c
  cases a <;> cases b <;> cases c <;> simp [WideImpl.optIntLe] <;> omega

theorem optIntLe_total : ∀ a b : Option Int,
    WideImpl.optIntLe a b || WideImpl.optIntLe b a := by
  intro a b
  cases a <;> cases b <;> simp [WideImpl.optIntLe] <;> omega

theorem optIntLe_antisymm : ∀ a b : Option Int,
    WideImpl.optIntLe a b → WideImpl.optIntLe b a → a = b := by
  intro a b
  cases a <;> cases b <;> simp [WideImpl.optIntLe] <;> omega

theorem rowLe_trans : ∀ a b c : WorkoutRow,
    WideImpl.rowLe a b → WideImpl.rowLe b c → WideImpl.rowLe a c := by
  intro a b c hab hbc
  unfold WideImpl.rowLe at *
  by_cases h1 : a.workout.id = b.workout.id <;> by_cases h2 : b.workout.id = c.workout.id
  · rw [if_pos (beq_iff_eq.mpr h1)] at hab
    rw [if_pos (beq_iff_eq.mpr h2)] at hbc
    rw [if_pos (beq_iff_eq.mpr (h1.trans h2))]
    by_cases g1 : a.workoutExercise.map WEProj.order = b.workoutExercise.map WEProj.order <;>
      by_cases g2 : b.workoutExercise.map WEProj.order = c.workoutExercise.map WEProj.order
    · rw [if_pos (beq_iff_eq.mpr g1)] at hab
      rw [if_pos (beq_iff_eq.mpr g2)] at hbc
      rw [if_pos (beq_iff_eq.mpr (g1.trans g2))]
      exact optIntLe_trans _ _ _ hab hbc
    · rw [if_pos (beq_iff_eq.mpr g1)] at hab
      rw [if_neg (by simp [g2])] at hbc
      rw [if_neg (by rw [g1]; simp [g2]), g1]
      exact hbc
    · rw [if_neg (by simp [g1])] at hab
      rw [if_pos (beq_iff_eq.mpr g2)] at hbc
      rw [if_neg (by rw [← g2]; simp [g1]), ← g2]
      exact hab
    · rw [if_neg (by simp [g1])] at hab
      rw [if_neg (by simp [g2])] at hbc
      by_cases g3 : a.workoutExercise.map WEProj.order = c.workoutExercise.map WEProj.order
      · exfalso
        rw [g3] at hab
        exact g2 (optIntLe_antisymm _ _ hbc hab)
      · rw [if_neg (by simp [g3])]
        exact optIntLe_trans _ _ _ hab hbc
  · rw [if_pos (beq_iff_eq.mpr h1)] at hab
    rw [if_neg (by simp [h2])] at hbc
    rw [if_neg (by simp [h1 ▸ h2])]
    simp only [decide_eq_true_eq] at hbc ⊢
    omega
  · rw [if_neg (by simp [h1])] at hab
    rw [if_pos (beq_iff_eq.mpr h2)] at hbc
    rw [if_neg (by simp [h2 ▸ h1])]
    simp only [decide_eq_true_eq] at hab ⊢
    omega
  · rw [if_neg (by simp [h1])] at hab
    rw [if_neg (by simp [h2])] at hbc
    simp only [decide_eq_true_eq] at hab hbc
    have hac : a.workout.id ≠ c.workout.id := by omega
    rw [if_neg (by simp [hac])]
    simp only [decide_eq_true_eq]
    omega

theorem rowLe_total : ∀ a b : WorkoutRow, WideImpl.rowLe a b || WideImpl.rowLe b a := by
  intro a b
  unfold WideImpl.rowLe
  by_cases h1 : a.workout.id = b.workout.id
  · rw [if_pos (beq_iff_eq.mpr h1), if_pos (beq_iff_eq.mpr h1.symm)]
    by_cases g1 : a.workoutExercise.map WEProj.order = b.workoutExercise.map WEProj.order
    · rw [if_pos (beq_iff_eq.mpr g1), if_pos (beq_iff_eq.mpr g1.symm)]
      exact optIntLe_total _ _
    · rw [if_neg (by simp [g1]), if_neg (by simp [Ne.symm g1])]
      exact optIntLe_total _ _
  · rw [if_neg (by simp [h1]), if_neg (by simp [Ne.symm h1])]
    simp only [Bool.or_eq_true, decide_eq_true_eq]
    omega

theorem rowLe_le_id : ∀ a b : WorkoutRow,
    WideImpl.rowLe a b → a.workout.id ≤ b.workout.id := by
  intro a b hab
  unfold WideImpl.rowLe at hab
  by_cases h1 : a.workout.id = b.workout.id
  · omega
  · rw [if_neg (by simp [h1])] at hab
    simpa using hab

theorem sorted_eq_filter_append (key : γ → Nat) (k : Nat) :
    ∀ {L : List γ}, L.Pairwise (fun a b => key a ≤ key b) → (∀ r ∈ L, k ≤ key r) →
      L = L.filter (fun r => key r == k) ++ L.filter (fun r => !(key r == k))
  | [], _, _ => rfl
  | a :: L, hL, hmin => by
    rw [List.pairwise_cons] at hL
    by_cases ha : key a = k
    · rw [List.filter_cons, List.filter_cons, if_pos (by simp [ha]), if_neg (by simp [ha])]
      rw [List.cons_append]
      congr 1
      exact sorted_eq_filter_append key k hL.2 (fun r hr => ha ▸ hL.1 r hr)
    · have hgt : ∀ r ∈ a :: L, ¬(key r = k) := by
        intro r hr
        rcases List.mem_cons.mp hr with rfl | hr
        · exact ha
        · have := hL.1 r hr
          have := hmin a (List.mem_cons_self a L)
          intro hk
          omega
      rw [List.filter_eq_nil_iff.mpr (fun r hr => by simp [hgt r hr]), List.nil_append]
      rw [List.filter_eq_self.mpr (fun r hr => by simp [hgt r hr])]

theorem sorted_partition (key : γ → Nat) :
    ∀ (ids : List Nat) (L : List γ), L.Pairwise (fun a b => key a ≤ key b) →
      ids.Pairwise (· < ·) → (∀ r ∈ L, key r ∈ ids) →
      L = ids.flatMap (fun k => L.filter (fun r => key r == k))
  | [], L, _, _, hmem => by
    have hn : L = [] := List.eq_nil_iff_forall_not_mem.mpr (fun r hr => by simpa using hmem r hr)
    rw [hn]
    rfl
  | k :: ks, L, hL, hids, hmem => by
    rw [List.pairwise_cons] at hids
    have hmin : ∀ r ∈ L, k ≤ key r := by
      intro r hr
      rcases List.mem_cons.mp (hmem r hr) with h | h
      · omega
      · exact Nat.le_of_lt (hids.1 _ h)
    have hsplit := sorted_eq_filter_append key k hL hmin
    rw [List.flatMap_cons]
    have hrest : ∀ k' ∈ ks, L.filter (fun r => key r == k')
        = (L.filter (fun r => !(key r == k))).filter (fun r => key r == k') := by
      intro k' hk'
      rw [List.filter_filter]
      apply List.filter_congr
      intro r _
      by_cases h : key r = k'
      · have hkk : ¬(k' = k) := by
          have := hids.1 k' hk'
          omega
        simp [h, hkk]
      · simp [h]
    have hR := sorted_partition key ks (L.filter (fun r => !(key r == k)))
      (hL.sublist (List.filter_sublist L))
      hids.2
      (by
        intro r hr
        rcases List.mem_filter.mp hr with ⟨hrl, hne⟩
        rcases List.mem_cons.mp (hmem r hrl) with h | h
        · exfalso
          simp [h] at hne
        · exact h)
    calc L = L.filter (fun r => key r == k) ++ L.filter (fun r => !(key r == k)) := hsplit
      _ = L.filter (fun r => key r == k)
          ++ ks.flatMap (fun k' => (L.filter (fun r => !(key r == k))).filter
              (fun r => key r == k')) := by rw [← hR]
      _ = L.filter (fun r => key r == k) ++ ks.flatMap (fun k' => L.filter (fun r => key r == k')) := by
          congr 1
          exact (List.flatMap_congr (fun k' hk' => (hrest k' hk').symm))

theorem map_orderedInsert {le : α → α → Bool} {le' : β → β → Bool} {f : α → β}
    (hc : ∀ a b, le a b = le' (f a) (f b)) (a : α) (l : List α) :
    (orderedInsert le a l).map f = orderedInsert le' (f a) (l.map f) := by
  induction l with
  | nil => rfl
  | cons b l ih =>
    simp only [orderedInsert, List.map_cons]
    rw [← hc]
    by_cases h : le a b = true
    · rw [if_pos h, if_pos h, List.map_cons, List.map_cons]
    · rw [if_neg h, if_neg h, List.map_cons, ih]

theorem map_sortBy (le : α → α → Bool) (le' : β → β → Bool) (f : α → β)
    (hc : ∀ a b, le a b = le' (f a) (f b)) (l : List α) :
    (sortBy le l).map f = sortBy le' (l.map f) := by
  induction l with
  | nil => rfl
  | cons a l ih =>
    rw [sortBy, List.map_cons, sortBy, ← ih, map_orderedInsert hc]

theorem filter_beq_subsingleton {l : List Exercise}
    (h : l.Pairwise fun a b => a.id ≠ b.id) (k : Nat) :
    l.filter (fun e => e.id == k) = [] ∨ ∃ e ∈ l, e.id = k ∧ l.filter (fun e => e.id == k) = [e] := by
  induction l with
  | nil => exact Or.inl rfl
  | cons a l ih =>
    rw [List.pairwise_cons] at h
    rw [List.filter_cons]
    by_cases ha : (a.id == k) = true
    · rw [if_pos ha]
      have hnil : l.filter (fun e => e.id == k) = [] := by
        refine List.filter_eq_nil_iff.mpr ?_
        intro e he hek
        exact h.1 e he ((beq_iff_eq.mp ha).trans (beq_iff_eq.mp (by simpa using hek)).symm)
      rw [hnil]
      exact Or.inr ⟨a, List.mem_cons_self a l, beq_iff_eq.mp ha, rfl⟩
    · rw [if_neg ha]
      rcases ih h.2 with hn | ⟨e, he, hek, heq⟩
      · exact Or.inl hn
      · exact Or.inr ⟨e, List.mem_cons_of_mem a he, hek, heq⟩

theorem csBlock_workout (s : Store) (w : Workout) :
    ∀ r ∈ csBlock s w, r.workout = projW w := by
  intro r hr
  unfold csBlock at hr
  rcases hm : s.workoutExercises.filter fun we => we.workoutId == w.id with _ | ⟨we₀, wes₀⟩ <;>
    rw [hm] at hr
  · rw [List.mem_singleton.mp hr]
  · rcases List.mem_flatMap.mp hr with ⟨we, _, hr⟩
    unfold crun at hr
    rcases List.mem_flatMap.mp hr with ⟨e?, _, hr⟩
    rcases List.mem_map.mp hr with ⟨st?, _, rfl⟩
    rfl

theorem csBlock_ne_nil (s : Store) (w : Workout) : csBlock s w ≠ [] := by
  unfold csBlock
  rcases hm : s.workoutExercises.filter fun we => we.workoutId == w.id with _ | ⟨we₀, wes₀⟩
  · rw [hm]
    simp
  · rw [hm]
    intro hnil
    obtain ⟨e?, he⟩ := optRows_exists_mem (s.exercises.filter fun e => e.id == we₀.exerciseId)
    obtain ⟨st?, hst⟩ := optRows_exists_mem (sortBy SeqImpl.setRowLe
      (s.sets.filter fun st => st.workoutExerciseId == we₀.id))
    have hwe₀ : we₀ ∈ sortBy weRowOrdLe (we₀ :: wes₀) :=
      mem_sortBy.mpr (List.mem_cons_self we₀ wes₀)
    have hmem : (⟨projW w, some (projWE we₀), e?.map projEx, st?.map projSet⟩ : WorkoutRow)
        ∈ ([] : List WorkoutRow) := by
      rw [← hnil]
      refine List.mem_flatMap.mpr ⟨we₀, hwe₀, ?_⟩
      unfold crun
      exact List.mem_flatMap.mpr ⟨e?, he, List.mem_map.mpr ⟨st?, hst, rfl⟩⟩
    exact absurd hmem (List.not_mem_nil _)

theorem optRows_perm {l₁ l₂ : List β} (h : l₁.Perm l₂) : (optRows l₁).Perm (optRows l₂) := by
  cases l₁ with
  | nil =>
    have h2 : l₂ = [] := List.eq_nil_of_length_eq_zero (by simpa using h.length_eq.symm)
    rw [h2]
  | cons x xs =>
    cases l₂ with
    | nil => exact absurd h.length_eq (by simp)
    | cons y ys =>
      show ((x :: xs).map some).Perm ((y :: ys).map some)
      exact h.map some

theorem blockRows_nil_case (s : Store) (w : Workout)
    (hm : s.workoutExercises.filter (fun we => we.workoutId == w.id) = []) :
    (wideBlock s w).map WideImpl.toRow = [⟨projW w, none, none, none⟩] := by
  unfold wideBlock
  rw [hm]
  show ([(none : Option WorkoutExercise)].flatMap _).map _ = _
  simp only [List.flatMap_cons, List.flatMap_nil, List.append_nil]
  have he : s.exercises.filter (fun e =>
      match (none : Option WorkoutExercise) with
      | some we => e.id == we.exerciseId
      | none => false) = [] :=
    List.filter_eq_nil_iff.mpr (fun e _ => by simp)
  have hs : s.sets.filter (fun st =>
      match (none : Option WorkoutExercise) with
      | some we => st.workoutExerciseId == we.id
      | none => false) = [] :=
    List.filter_eq_nil_iff.mpr (fun st _ => by simp)
  rw [he, hs]
  rfl

theorem blockRows_cons_case (s : Store) (w : Workout) (we₀ : WorkoutExercise)
    (wes₀ : List WorkoutExercise)
    (hm : s.workoutExercises.filter (fun we => we.workoutId == w.id) = we₀ :: wes₀) :
    (wideBlock s w).map WideImpl.toRow
      = (we₀ :: wes₀).flatMap fun we =>
          (optRows (s.exercises.filter fun e => e.id == we.exerciseId)).flatMap fun e? =>
            (optRows (s.sets.filter fun st => st.workoutExerciseId == we.id)).map
              fun st? => ⟨projW w, some (projWE we), e?.map projEx, st?.map projSet⟩ := by
  unfold wideBlock
  rw [hm]
  show ((((we₀ :: wes₀).map some).flatMap _).map _) = _
  rw [List.flatMap_map, List.map_flatMap]
  apply List.flatMap_congr
  intro we _
  rw [List.map_flatMap]
  apply List.flatMap_congr
  intro e? _
  rw [List.map_map]
  rfl

theorem blockRows_perm_csBlock (s : Store) (w : Workout) :
    ((wideBlock s w).map WideImpl.toRow).Perm (csBlock s w) := by
  unfold csBlock
  rcases hm : s.workoutExercises.filter fun we => we.workoutId == w.id with _ | ⟨we₀, wes₀⟩ <;>
    rw [hm]
  · rw [blockRows_nil_case s w hm]
  · rw [blockRows_cons_case s w we₀ wes₀ hm]
    refine List.Perm.trans (List.Perm.flatMap_left _ ?_)
      (List.Perm.flatMap_right _ (sortBy_perm weRowOrdLe (we₀ :: wes₀)).symm)
    intro we _
    unfold crun
    refine List.Perm.flatMap_left _ ?_
    intro e? _
    exact (optRows_perm (sortBy_perm SeqImpl.setRowLe _).symm).map _

theorem rowLe_same_id_same_ord (r₁ r₂ : WorkoutRow)
    (hid : r₁.workout.id = r₂.workout.id)
    (hord : r₁.workoutExercise.map WEProj.order = r₂.workoutExercise.map WEProj.order) :
    WideImpl.rowLe r₁ r₂
      = WideImpl.optIntLe (r₁.set.map SetEntry.setNumber) (r₂.set.map SetEntry.setNumber) := by
  unfold WideImpl.rowLe
  rw [if_pos (beq_iff_eq.mpr hid), if_pos (beq_iff_eq.mpr hord)]

theorem rowLe_same_id_diff_ord (r₁ r₂ : WorkoutRow)
    (hid : r₁.workout.id = r₂.workout.id)
    (hord : r₁.workoutExercise.map WEProj.order ≠ r₂.workoutExercise.map WEProj.order) :
    WideImpl.rowLe r₁ r₂
      = WideImpl.optIntLe (r₁.workoutExercise.map WEProj.order)
          (r₂.workoutExercise.map WEProj.order) := by
  unfold WideImpl.rowLe
  rw [if_pos (beq_iff_eq.mpr hid), if_neg (by simp [hord])]

theorem crun_shape (s : Store) (w : Workout) (we : WorkoutExercise) :
    ∀ r ∈ crun s w we, r.workout = projW w ∧ r.workoutExercise = some (projWE we) := by
  intro r hr
  unfold crun at hr
  rcases List.mem_flatMap.mp hr with ⟨e?, _, hr⟩
  rcases List.mem_map.mp hr with ⟨st?, _, rfl⟩
  exact ⟨rfl, rfl⟩

theorem crun_eq_of_subsingleton (s : Store) (w : Workout) (we : WorkoutExercise)
    (e? : Option Exercise)
    (h : optRows (s.exercises.filter fun e => e.id == we.exerciseId) = [e?]) :
    crun s w we = (optRows (sortBy SeqImpl.setRowLe
        (s.sets.filter fun st => st.workoutExerciseId == we.id))).map
      fun st? => ⟨projW w, some (projWE we), e?.map projEx, st?.map projSet⟩ := by
  unfold crun
  rw [h, List.flatMap_cons, List.flatMap_nil, List.append_nil]

theorem crun_sorted (s : Store) (w : Workout) (we : WorkoutExercise) (e? : Option Exercise)
    (h : optRows (s.exercises.filter fun e => e.id == we.exerciseId) = [e?]) :
    (crun s w we).Pairwise (fun a b => WideImpl.rowLe a b) := by
  rw [crun_eq_of_subsingleton s w we e? h]
  have hsorted : (sortBy SeqImpl.setRowLe
      (s.sets.filter fun st => st.workoutExerciseId == we.id)).Pairwise
      (fun a b => SeqImpl.setRowLe a b) :=
    pairwise_sortBy setRowLe_trans setRowLe_total _
  refine List.pairwise_map.mpr ?_
  cases hs : sortBy SeqImpl.setRowLe (s.sets.filter fun st => st.workoutExerciseId == we.id) with
  | nil => exact List.Pairwise.nil.cons (by simp)
  | cons s0 ss =>
    show ((s0 :: ss).map some).Pairwise _
    rw [hs] at hsorted
    refine List.pairwise_map.mpr (hsorted.imp ?_)
    intro a b hab
    have heq := rowLe_same_id_same_ord
      ⟨projW w, some (projWE we), e?.map projEx, some (projSet a)⟩
      ⟨projW w, some (projWE we), e?.map projEx, some (projSet b)⟩ rfl rfl
    show WideImpl.rowLe ⟨projW w, some (projWE we), e?.map projEx, some (projSet a)⟩
        ⟨projW w, some (projWE we), e?.map projEx, some (projSet b)⟩ = true
    rw [heq]
    simpa [WideImpl.optIntLe, projSet, SeqImpl.setRowLe] using hab

theorem weRowOrdLe_trans : ∀ a b c : WorkoutExercise,
    weRowOrdLe a b → weRowOrdLe b c → weRowOrdLe a c := by
  intro a b c
  simp only [weRowOrdLe, decide_eq_true_eq]
  omega

theorem weRowOrdLe_total : ∀ a b : WorkoutExercise, weRowOrdLe a b || weRowOrdLe b a := by
  intro a b
  simp only [weRowOrdLe, Bool.or_eq_true, decide_eq_true_eq]
  omega

theorem optRows_filter_exercise (s : Store)
    (hE : s.exercises.Pairwise fun a b => a.id ≠ b.id) (k : Nat) :
    ∃ e?, optRows (s.exercises.filter fun e => e.id == k) = [e?] := by
  rcases filter_beq_subsingleton hE k with h | ⟨e, _, _, h⟩
  · exact ⟨none, by rw [h]; rfl⟩
  · exact ⟨some e, by rw [h]; rfl⟩

theorem wes_filter_distinct_orders (s : Store) (w : Workout)
    (hOrd : s.workoutExercises.Pairwise fun a b => a.workoutId = b.workoutId → a.order ≠ b.order) :
    (s.workoutExercises.filter fun we => we.workoutId == w.id).Pairwise
      (fun a b => a.order ≠ b.order) := by
  have hsub : (s.workoutExercises.filter fun we => we.workoutId == w.id).Pairwise
      (fun a b => a.workoutId = b.workoutId → a.order ≠ b.order) :=
    hOrd.sublist (List.filter_sublist _)
  refine List.Pairwise.imp_of_mem ?_ hsub
  intro a b ha hb hab
  apply hab
  have ha' := (List.mem_filter.mp ha).2
  have hb' := (List.mem_filter.mp hb).2
  rw [beq_iff_eq.mp ha', beq_iff_eq.mp hb']

theorem csBlock_sorted (s : Store) (w : Workout)
    (hE : s.exercises.Pairwise fun a b => a.id ≠ b.id)
    (hOrd : s.workoutExercises.Pairwise fun a b => a.workoutId = b.workoutId → a.order ≠ b.order) :
    (csBlock s w).Pairwise fun a b => WideImpl.rowLe a b := by
  unfold csBlock
  rcases hm : s.workoutExercises.filter fun we => we.workoutId == w.id with _ | ⟨we₀, wes₀⟩ <;>
    rw [hm]
  · simp
  · refine List.pairwise_flatMap.mpr ⟨?_, ?_⟩
    · intro we _
      obtain ⟨e?, he⟩ := optRows_filter_exercise s hE we.exerciseId
      exact crun_sorted s w we e? he
    · have hords : (sortBy weRowOrdLe (we₀ :: wes₀)).Pairwise
          (fun a b => weRowOrdLe a b) := pairwise_sortBy weRowOrdLe_trans weRowOrdLe_total _
      have hdist : (sortBy weRowOrdLe (we₀ :: wes₀)).Pairwise
          (fun a b => a.order ≠ b.order) := by
        have h1 := wes_filter_distinct_orders s w hOrd
        rw [hm] at h1
        exact ((sortBy_perm weRowOrdLe _).pairwise_iff
          (fun {x y} h => Ne.symm h)).mpr h1
      refine (hords.and hdist).imp ?_
      rintro a b ⟨hle, hne⟩ r₁ hr₁ r₂ hr₂
      obtain ⟨hw₁, hwe₁⟩ := crun_shape s w a r₁ hr₁
      obtain ⟨hw₂, hwe₂⟩ := crun_shape s w b r₂ hr₂
      have hid : r₁.workout.id = r₂.workout.id := by rw [hw₁, hw₂]
      have hord : r₁.workoutExercise.map WEProj.order ≠ r₂.workoutExercise.map WEProj.order := by
        rw [hwe₁, hwe₂]
        simpa [projWE] using hne
      rw [rowLe_same_id_diff_ord _ _ hid hord, hwe₁, hwe₂]
      simpa [WideImpl.optIntLe, projWE, weRowOrdLe] using hle

theorem sets_filter_distinct (s : Store) (k : Nat)
    (hSN : s.sets.Pairwise fun a b =>
      a.workoutExerciseId = b.workoutExerciseId → a.setNumber ≠ b.setNumber) :
    (s.sets.filter fun st => st.workoutExerciseId == k).Pairwise
      (fun a b => a.setNumber ≠ b.setNumber) := by
  have hsub : (s.sets.filter fun st => st.workoutExerciseId == k).Pairwise
      (fun a b => a.workoutExerciseId = b.workoutExerciseId → a.setNumber ≠ b.setNumber) :=
    hSN.sublist (List.filter_sublist _)
  refine List.Pairwise.imp_of_mem ?_ hsub
  intro a b ha hb hab
  apply hab
  rw [beq_iff_eq.mp (List.mem_filter.mp ha).2, beq_iff_eq.mp (List.mem_filter.mp hb).2]

theorem crun_strict (s : Store) (w : Workout) (we : WorkoutExercise) (e? : Option Exercise)
    (h : optRows (s.exercises.filter fun e => e.id == we.exerciseId) = [e?])
    (hSN : s.sets.Pairwise fun a b =>
      a.workoutExerciseId = b.workoutExerciseId → a.setNumber ≠ b.setNumber) :
    (crun s w we).Pairwise (fun r₁ r₂ => WideImpl.rowLe r₂ r₁ = false) := by
  rw [crun_eq_of_subsingleton s w we e? h]
  have hsorted : (sortBy SeqImpl.setRowLe
      (s.sets.filter fun st => st.workoutExerciseId == we.id)).Pairwise
      (fun a b => SeqImpl.setRowLe a b) :=
    pairwise_sortBy setRowLe_trans setRowLe_total _
  have hdist : (sortBy SeqImpl.setRowLe
      (s.sets.filter fun st => st.workoutExerciseId == we.id)).Pairwise
      (fun a b => a.setNumber ≠ b.setNumber) :=
    ((sortBy_perm SeqImpl.setRowLe _).pairwise_iff (fun {x y} h' => Ne.symm h')).mpr
      (sets_filter_distinct s we.id hSN)
  refine List.pairwise_map.mpr ?_
  cases hs : sortBy SeqImpl.setRowLe (s.sets.filter fun st => st.workoutExerciseId == we.id) with
  | nil => exact List.Pairwise.nil.cons (by simp)
  | cons s0 ss =>
    rw [hs] at hsorted hdist
    show ((s0 :: ss).map some).Pairwise _
    refine List.pairwise_map.mpr ((hsorted.and hdist).imp ?_)
    rintro a b ⟨hle, hne⟩
    have heq := rowLe_same_id_same_ord
      ⟨projW w, some (projWE we), e?.map projEx, some (projSet b)⟩
      ⟨projW w, some (projWE we), e?.map projEx, some (projSet a)⟩ rfl rfl
    show WideImpl.rowLe ⟨projW w, some (projWE we), e?.map projEx, some (projSet b)⟩
        ⟨projW w, some (projWE we), e?.map projEx, some (projSet a)⟩ = false
    rw [heq]
    simp only [SeqImpl.setRowLe, decide_eq_true_eq] at hle
    simp [WideImpl.optIntLe, projSet]
    omega

theorem csBlock_strict (s : Store) (w : Workout)
    (hE : s.exercises.Pairwise fun a b => a.id ≠ b.id)
    (hOrd : s.workoutExercises.Pairwise fun a b => a.workoutId = b.workoutId → a.order ≠ b.order)
    (hSN : s.sets.Pairwise fun a b =>
      a.workoutExerciseId = b.workoutExerciseId → a.setNumber ≠ b.setNumber) :
    (csBlock s w).Pairwise (fun r₁ r₂ => WideImpl.rowLe r₂ r₁ = false) := by
  unfold csBlock
  rcases hm : s.workoutExercises.filter fun we => we.workoutId == w.id with _ | ⟨we₀, wes₀⟩ <;>
    rw [hm]
  · simp
  · refine List.pairwise_flatMap.mpr ⟨?_, ?_⟩
    · intro we _
      obtain ⟨e?, he⟩ := optRows_filter_exercise s hE we.exerciseId
      exact crun_strict s w we e? he hSN
    · have hords : (sortBy weRowOrdLe (we₀ :: wes₀)).Pairwise
          (fun a b => weRowOrdLe a b) := pairwise_sortBy weRowOrdLe_trans weRowOrdLe_total _
      have hdist : (sortBy weRowOrdLe (we₀ :: wes₀)).Pairwise
          (fun a b => a.order ≠ b.order) := by
        have h1 := wes_filter_distinct_orders s w hOrd
        rw [hm] at h1
        exact ((sortBy_perm weRowOrdLe _).pairwise_iff (fun {x y} h => Ne.symm h)).mpr h1
      refine (hords.and hdist).imp ?_
      rintro a b ⟨hle, hne⟩ r₁ hr₁ r₂ hr₂
      obtain ⟨hw₁, hwe₁⟩ := crun_shape s w a r₁ hr₁
      obtain ⟨hw₂, hwe₂⟩ := crun_shape s w b r₂ hr₂
      have hid : r₂.workout.id = r₁.workout.id := by rw [hw₁, hw₂]
      have hord : r₂.workoutExercise.map WEProj.order ≠ r₁.workoutExercise.map WEProj.order := by
        rw [hwe₁, hwe₂]
        simpa [projWE] using (Ne.symm hne)
      rw [rowLe_same_id_diff_ord _ _ hid hord, hwe₁, hwe₂]
      simp only [weRowOrdLe, decide_eq_true_eq] at hle
      simp [WideImpl.optIntLe, projWE]
      omega

theorem csBlock_anti (s : Store) (w : Workout)
    (hE : s.exercises.Pairwise fun a b => a.id ≠ b.id)
    (hOrd : s.workoutExercises.Pairwise fun a b => a.workoutId = b.workoutId → a.order ≠ b.order)
    (hSN : s.sets.Pairwise fun a b =>
      a.workoutExerciseId = b.workoutExerciseId → a.setNumber ≠ b.setNumber) :
    ∀ a ∈ csBlock s w, ∀ b ∈ csBlock s w,
      WideImpl.rowLe a b → WideImpl.rowLe b a → a = b := by
  intro a ha b hb hab hba
  by_cases heq : a = b
  · exact heq
  · exfalso
    have hp : (csBlock s w).Pairwise
        (fun r₁ r₂ => WideImpl.rowLe r₁ r₂ = false ∨ WideImpl.rowLe r₂ r₁ = false) :=
      (csBlock_strict s w hE hOrd hSN).imp (fun h => Or.inr h)
    have hor := List.Pairwise.forall (fun {x y} h => Or.symm h) hp ha hb heq
    rcases hor with h | h
    · rw [hab] at h
      exact Bool.true_eq_false.mp h
    · rw [hba] at h
      exact Bool.true_eq_false.mp h

theorem flatMap_filter_single (f : Workout → List WorkoutRow) (w : Workout) :
    ∀ W : List Workout, (∀ w' ∈ W, ∀ r ∈ f w', r.workout.id = w'.id) →
      W.Pairwise (fun a b => a.id ≠ b.id) → w ∈ W →
      (W.flatMap f).filter (fun r => r.workout.id == w.id) = f w := by
  intro W
  induction W with
  | nil =>
    intro _ _ hw
    exact absurd hw (List.not_mem_nil w)
  | cons w' W ih =>
    intro hhom hdist hw
    rw [List.pairwise_cons] at hdist
    rw [List.flatMap_cons, List.filter_append]
    rcases List.mem_cons.mp hw with rfl | hw'
    · rw [List.filter_eq_self.mpr (fun r hr => by
        simp [hhom w (List.mem_cons_self w W) r hr])]
      rw [List.filter_eq_nil_iff.mpr ?_, List.append_nil]
      intro r hr
      rcases List.mem_flatMap.mp hr with ⟨w'', hw'', hrw⟩
      have : r.workout.id = w''.id := hhom w'' (List.mem_cons_of_mem w hw'') r hrw
      simp [this, Ne.symm (hdist.1 w'' hw'')]
    · rw [List.filter_eq_nil_iff.mpr (fun r hr => by
        simp [hhom w' (List.mem_cons_self w' W) r hr, hdist.1 w hw']), List.nil_append]
      exact ih (fun w'' hw'' => hhom w'' (List.mem_cons_of_mem w' hw'')) hdist.2 hw'

theorem rowsFor_filter_eq_csBlock (s : Store) (u : String) (d : Nat) (w : Workout)
    (hW : s.workouts.Pairwise fun a b => a.id ≠ b.id)
    (hE : s.exercises.Pairwise fun a b => a.id ≠ b.id)
    (hOrd : s.workoutExercises.Pairwise fun a b => a.workoutId = b.workoutId → a.order ≠ b.order)
    (hSN : s.sets.Pairwise fun a b =>
      a.workoutExerciseId = b.workoutExerciseId → a.setNumber ≠ b.setNumber)
    (hw : w ∈ s.workouts.filter fun w => w.userId == u && w.date == d) :
    (WideImpl.rowsFor s u d).filter (fun r => r.workout.id == w.id) = csBlock s w := by
  have hWf : (s.workouts.filter fun w => w.userId == u && w.date == d).Pairwise
      (fun a b => a.id ≠ b.id) := hW.sublist (List.filter_sublist _)
  have hhom : ∀ w' ∈ s.workouts.filter (fun w => w.userId == u && w.date == d),
      ∀ r ∈ (wideBlock s w').map WideImpl.toRow, r.workout.id = w'.id := by
    intro w' _ r hr
    rcases List.mem_map.mp hr with ⟨x, hx, rfl⟩
    show (projW x.1.1.1).id = w'.id
    rw [wideBlock_workout s w' x hx]
    rfl
  have hperm : ((WideImpl.rowsFor s u d).filter
      (fun r => r.workout.id == w.id)).Perm (csBlock s w) := by
    have h1 : (WideImpl.rowsFor s u d).Perm
        ((s.workouts.filter fun w => w.userId == u && w.date == d).flatMap
          fun w' => (wideBlock s w').map WideImpl.toRow) := by
      rw [rowsFor_eq]
      exact sortBy_perm _ _
    refine (h1.filter _).trans ?_
    rw [flatMap_filter_single _ w _ hhom hWf hw]
    exact blockRows_perm_csBlock s w
  have hsorted₂ : ((WideImpl.rowsFor s u d).filter
      (fun r => r.workout.id == w.id)).Pairwise (fun a b => WideImpl.rowLe a b) := by
    refine List.Pairwise.sublist (List.filter_sublist _) ?_
    rw [rowsFor_eq]
    exact pairwise_sortBy rowLe_trans rowLe_total _
  exact (eq_of_perm_of_sorted_local WideImpl.rowLe
    (fun a b ha hb => csBlock_anti s w hE hOrd hSN a ha b hb) hperm.symm
    (csBlock_sorted s w hE hOrd) hsorted₂).symm

theorem workoutIdLe_trans : ∀ a b c : Workout,
    workoutIdLe a b → workoutIdLe b c → workoutIdLe a c := by
  intro a b c
  simp only [workoutIdLe, decide_eq_true_eq]
  omega

theorem workoutIdLe_total : ∀ a b : Workout, workoutIdLe a b || workoutIdLe b a := by
  intro a b
  simp only [workoutIdLe, Bool.or_eq_true, decide_eq_true_eq]
  omega

theorem rowsFor_partition (s : Store) (u : String) (d : Nat)
    (hW : s.workouts.Pairwise fun a b => a.id ≠ b.id) :
    WideImpl.rowsFor s u d
      = (sortBy workoutIdLe (s.workouts.filter fun w => w.userId == u && w.date == d)).flatMap
          (fun w => (WideImpl.rowsFor s u d).filter fun r => r.workout.id == w.id) := by
  have hsorted : (WideImpl.rowsFor s u d).Pairwise
      (fun a b => a.workout.id ≤ b.workout.id) := by
    rw [rowsFor_eq]
    exact (pairwise_sortBy rowLe_trans rowLe_total _).imp (fun h => rowLe_le_id _ _ h)
  have hWf : (s.workouts.filter fun w => w.userId == u && w.date == d).Pairwise
      (fun a b => a.id ≠ b.id) := hW.sublist (List.filter_sublist _)
  have hW' : (sortBy workoutIdLe (s.workouts.filter fun w => w.userId == u && w.date == d)).Pairwise
      (fun a b => a.id < b.id) := by
    have h1 := pairwise_sortBy workoutIdLe_trans workoutIdLe_total
      (s.workouts.filter fun w => w.userId == u && w.date == d)
    have h2 := ((sortBy_perm workoutIdLe _).pairwise_iff (fun {x y} h => Ne.symm h)).mpr hWf
    refine (h1.and h2).imp ?_
    rintro a b ⟨hle, hne⟩
    simp only [workoutIdLe, decide_eq_true_eq] at hle
    omega
  have hids : ((sortBy workoutIdLe (s.workouts.filter fun w =>
      w.userId == u && w.date == d)).map Workout.id).Pairwise (· < ·) :=
    List.pairwise_map.mpr hW'
  have hmem : ∀ r ∈ WideImpl.rowsFor s u d,
      r.workout.id ∈ (sortBy workoutIdLe (s.workouts.filter fun w =>
        w.userId == u && w.date == d)).map Workout.id := by
    intro r hr
    rw [rowsFor_eq, mem_sortBy] at hr
    rcases List.mem_flatMap.mp hr with ⟨w, hw, hrw⟩
    rcases List.mem_map.mp hrw with ⟨x, hx, rfl⟩
    refine List.mem_map.mpr ⟨w, mem_sortBy.mpr hw, ?_⟩
    show w.id = (projW x.1.1.1).id
    rw [wideBlock_workout s w x hx]
    rfl
  have hpart := sorted_partition (fun r => r.workout.id)
    ((sortBy workoutIdLe (s.workouts.filter fun w => w.userId == u && w.date == d)).map
      Workout.id) (WideImpl.rowsFor s u d) hsorted hids hmem
  rw [List.flatMap_map] at hpart
  exact hpart

theorem addRow_append_left (acc₁ acc₂ : List WGroup) (r : WorkoutRow)
    (h : ∀ g ∈ acc₁, g.workout.id ≠ r.workout.id) :
    addRow (acc₁ ++ acc₂) r = acc₁ ++ addRow acc₂ r := by
  have hmap : ∀ we ex, acc₁.map (fun g =>
      if g.workout.id == r.workout.id then
        { g with exercisesMap := addChild g.exercisesMap we ex r.set } else g) = acc₁ := by
    intro we ex
    rw [show acc₁ = acc₁.map id from (List.map_id acc₁).symm]
    simp only [List.map_map]
    apply List.map_congr_left
    intro g hg
    simp [if_neg (by simpa using h g (by simpa using hg))]
  unfold addRow
  have hany : (acc₁ ++ acc₂).any (fun g => g.workout.id == r.workout.id)
      = acc₂.any (fun g => g.workout.id == r.workout.id) := by
    rw [List.any_append]
    cases ha : acc₁.any (fun g => g.workout.id == r.workout.id)
    · simp
    · rcases List.any_eq_true.mp ha with ⟨g, hg, hgid⟩
      exact absurd (beq_iff_eq.mp hgid) (h g hg)
  rw [hany]
  rcases r.workoutExercise with _ | we
  · dsimp only
    by_cases hc : (acc₂.any fun g => g.workout.id == r.workout.id) = true
    · rw [if_pos hc, if_pos hc]
    · rw [if_neg hc, if_neg hc, List.append_assoc]
  · rcases r.exercise with _ | ex
    · dsimp only
      by_cases hc : (acc₂.any fun g => g.workout.id == r.workout.id) = true
      · rw [if_pos hc, if_pos hc]
      · rw [if_neg hc, if_neg hc, List.append_assoc]
    · dsimp only
      by_cases hc : (acc₂.any fun g => g.workout.id == r.workout.id) = true
      · rw [if_pos hc, if_pos hc, List.map_append, hmap]
      · rw [if_neg hc, if_neg hc, List.append_assoc, List.map_append, hmap]

theorem foldl_addRow_append_left (acc₁ : List WGroup) :
    ∀ (L : List WorkoutRow) (acc₂ : List WGroup),
      (∀ r ∈ L, ∀ g ∈ acc₁, g.workout.id ≠ r.workout.id) →
      L.foldl addRow (acc₁ ++ acc₂) = acc₁ ++ L.foldl addRow acc₂ := by
  intro L
  induction L with
  | nil =>
    intro acc₂ _
    rfl
  | cons r L ih =>
    intro acc₂ h
    simp only [List.foldl_cons]
    rw [addRow_append_left acc₁ acc₂ r (h r (List.mem_cons_self r L))]
    exact ih (addRow acc₂ r) (fun r' hr' => h r' (List.mem_cons_of_mem r hr'))

theorem addRow_homog (wp : WProj) (m : List ExGroup) (r : WorkoutRow) (hr : r.workout = wp) :
    addRow [⟨wp, m⟩] r = [⟨wp, childStep m r⟩] := by
  unfold addRow childStep
  have hany : ([⟨wp, m⟩] : List WGroup).any (fun g => g.workout.id == r.workout.id) = true := by
    simp [hr]
  rw [hany]
  rcases r.workoutExercise with _ | we
  · rw [if_pos rfl]
  · rcases r.exercise with _ | ex
    · rw [if_pos rfl]
    · dsimp only
      rw [if_pos rfl, List.map_cons, List.map_nil,
        if_pos (by simp [hr])]

theorem addRow_nil (r : WorkoutRow) :
    addRow [] r = [⟨r.workout, childStep [] r⟩] := by
  unfold addRow childStep
  rcases r.workoutExercise with _ | we
  · rfl
  · rcases r.exercise with _ | ex
    · rfl
    · dsimp only
      rw [if_neg (by simp), List.nil_append, List.map_cons, List.map_nil,
        if_pos (by simp)]

theorem foldl_addRow_homog (wp : WProj) :
    ∀ (B : List WorkoutRow) (m : List ExGroup), (∀ r ∈ B, r.workout = wp) →
      B.foldl addRow [⟨wp, m⟩] = [⟨wp, B.foldl childStep m⟩] := by
  intro B
  induction B with
  | nil =>
    intro m _
    rfl
  | cons r B ih =>
    intro m h
    simp only [List.foldl_cons]
    rw [addRow_homog wp m r (h r (List.mem_cons_self r B))]
    exact ih (childStep m r) (fun r' hr' => h r' (List.mem_cons_of_mem r hr'))

theorem foldl_addRow_single_block (wp : WProj) (B : List WorkoutRow)
    (hne : B ≠ []) (h : ∀ r ∈ B, r.workout = wp) :
    B.foldl addRow [] = [⟨wp, foldChildren B⟩] := by
  cases B with
  | nil => exact absurd rfl hne
  | cons r B =>
    simp only [List.foldl_cons]
    rw [addRow_nil r, h r (List.mem_cons_self r B)]
    rw [foldl_addRow_homog wp B (childStep [] r)
      (fun r' hr' => h r' (List.mem_cons_of_mem r hr'))]
    rfl

theorem foldl_addRow_blocks :
    ∀ (W' : List Workout) (f : Workout → List WorkoutRow),
      (∀ w ∈ W', ∀ r ∈ f w, r.workout = projW w) →
      (∀ w ∈ W', f w ≠ []) →
      W'.Pairwise (fun a b => a.id ≠ b.id) →
      (W'.flatMap f).foldl addRow [] = W'.map (fun w => ⟨projW w, foldChildren (f w)⟩) := by
  intro W'
  induction W' with
  | nil =>
    intro f _ _ _
    rfl
  | cons w W' ih =>
    intro f hhom hne hdist
    rw [List.pairwise_cons] at hdist
    rw [List.flatMap_cons, List.foldl_append]
    rw [foldl_addRow_single_block (projW w) (f w) (hne w (List.mem_cons_self w W'))
      (hhom w (List.mem_cons_self w W'))]
    rw [show ([⟨projW w, foldChildren (f w)⟩] : List WGroup)
      = [⟨projW w, foldChildren (f w)⟩] ++ [] from (List.append_nil _).symm]
    rw [foldl_addRow_append_left _ _ _ ?_]
    · rw [ih f (fun w' hw' => hhom w' (List.mem_cons_of_mem w hw'))
        (fun w' hw' => hne w' (List.mem_cons_of_mem w hw')) hdist.2]
      rfl
    · intro r hr g hg
      rcases List.mem_flatMap.mp hr with ⟨w', hw', hrw⟩
      rw [List.mem_singleton.mp hg, hhom w' (List.mem_cons_of_mem w hw') r hrw]
      show (projW w).id ≠ (projW w').id
      simpa [projW] using hdist.1 w' hw'

theorem addChild_fresh (m : List ExGroup) (we : WEProj) (ex : ExProj) (st : Option SetEntry)
    (h : ∀ g ∈ m, g.workoutExercise.id ≠ we.id) :
    addChild m we ex st = m ++ [⟨we, ex, st.toList⟩] := by
  unfold addChild
  have hany : m.any (fun g => g.workoutExercise.id == we.id) = false := by
    cases ha : m.any (fun g => g.workoutExercise.id == we.id)
    · rfl
    · rcases List.any_eq_true.mp ha with ⟨g, hg, hgid⟩
      exact absurd (beq_iff_eq.mp hgid) (h g hg)
  rw [hany]
  dsimp only
  rw [if_neg (by simp)]
  cases st with
  | none => rfl
  | some s0 =>
    dsimp only
    rw [List.map_append]
    congr 1
    · rw [show m = m.map id from (List.map_id m).symm]
      simp only [List.map_map]
      apply List.map_congr_left
      intro g hg
      simp [if_neg (by simpa using h g (by simpa using hg))]
    · rw [List.map_cons, List.map_nil, if_pos (by simp)]
      rfl

theorem addChild_push (m : List ExGroup) (we : WEProj) (ex ex' : ExProj)
    (sets : List SetEntry) (st : SetEntry)
    (h : ∀ g ∈ m, g.workoutExercise.id ≠ we.id) :
    addChild (m ++ [⟨we, ex, sets⟩]) we ex' (some st) = m ++ [⟨we, ex, sets ++ [st]⟩] := by
  unfold addChild
  have hone : ([(⟨we, ex, sets⟩ : ExGroup)].any fun g => g.workoutExercise.id == we.id)
      = true := by simp
  have hany : (m ++ [(⟨we, ex, sets⟩ : ExGroup)]).any
      (fun g => g.workoutExercise.id == we.id) = true := by
    rw [List.any_append, hone, Bool.or_true]
  rw [hany]
  dsimp only
  rw [if_pos rfl, List.map_append]
  congr 1
  · rw [show m = m.map id from (List.map_id m).symm]
    simp only [List.map_map]
    apply List.map_congr_left
    intro g hg
    simp [if_neg (by simpa using h g (by simpa using hg))]
  · rw [List.map_cons, List.map_nil, if_pos (by simp)]

theorem foldl_childStep_none (m : List ExGroup) :
    ∀ rows : List WorkoutRow, (∀ r ∈ rows, r.exercise = none) →
      rows.foldl childStep m = m := by
  intro rows
  induction rows generalizing m with
  | nil => intro _; rfl
  | cons r rows ih =>
    intro h
    simp only [List.foldl_cons]
    have hstep : childStep m r = m := by
      unfold childStep
      rcases hwe : r.workoutExercise with _ | we
      · rfl
      · rw [h r (List.mem_cons_self r rows)]
    rw [hstep]
    exact ih m (fun r' hr' => h r' (List.mem_cons_of_mem r hr'))

theorem foldl_childStep_push_run (w : Workout) (we : WorkoutExercise) (e : Exercise)
    (m : List ExGroup) (ex : ExProj) (hfresh : ∀ g ∈ m, g.workoutExercise.id ≠ (projWE we).id) :
    ∀ (ss : List SetRow) (acc : List SetEntry),
      ((ss.map some).map (fun st? =>
          (⟨projW w, some (projWE we), some (projEx e), st?.map projSet⟩ : WorkoutRow))).foldl
        childStep (m ++ [⟨projWE we, ex, acc⟩])
      = m ++ [⟨projWE we, ex, acc ++ ss.map projSet⟩] := by
  intro ss
  induction ss with
  | nil =>
    intro acc
    simp
  | cons s0 ss ih =>
    intro acc
    simp only [List.map_cons, List.foldl_cons, Option.map_some']
    have hstep : childStep (m ++ [⟨projWE we, ex, acc⟩])
        (⟨projW w, some (projWE we), some (projEx e), some (projSet s0)⟩ : WorkoutRow)
        = m ++ [⟨projWE we, ex, acc ++ [projSet s0]⟩] := by
      unfold childStep
      exact addChild_push m (projWE we) ex (projEx e) acc (projSet s0) hfresh
    rw [hstep, ih (acc ++ [projSet s0]), List.append_assoc]
    rfl

theorem foldl_childStep_run (s : Store) (w : Workout) (we : WorkoutExercise)
    (m : List ExGroup)
    (hE : s.exercises.Pairwise fun a b => a.id ≠ b.id)
    (hfresh : ∀ g ∈ m, g.workoutExercise.id ≠ we.id) :
    (crun s w we).foldl childStep m
      = m ++ (s.exercises.filter fun e => e.id == we.exerciseId).map
          (fun e => ⟨projWE we, projEx e,
            (sortBy SeqImpl.setRowLe
              (s.sets.filter fun st => st.workoutExerciseId == we.id)).map projSet⟩) := by
  have hfresh' : ∀ g ∈ m, g.workoutExercise.id ≠ (projWE we).id := hfresh
  rcases filter_beq_subsingleton hE we.exerciseId with hef | ⟨e, _, _, hef⟩
  · rw [crun_eq_of_subsingleton s w we none (by rw [hef]; rfl), hef]
    rw [foldl_childStep_none m _ ?_]
    · simp
    · intro r hr
      rcases List.mem_map.mp hr with ⟨st?, _, rfl⟩
      rfl
  · rw [crun_eq_of_subsingleton s w we (some e) (by rw [hef]; rfl), hef]
    cases hs : sortBy SeqImpl.setRowLe
        (s.sets.filter fun st => st.workoutExerciseId == we.id) with
    | nil =>
      show ([(⟨projW w, some (projWE we), (some e).map projEx, Option.map projSet none⟩ :
          WorkoutRow)]).foldl childStep m = _
      simp only [List.foldl_cons, List.foldl_nil, Option.map_some', Option.map_none']
      have hstep : childStep m
          (⟨projW w, some (projWE we), some (projEx e), none⟩ : WorkoutRow)
          = m ++ [⟨projWE we, projEx e, []⟩] := by
        unfold childStep
        exact addChild_fresh m (projWE we) (projEx e) none hfresh'
      rw [hstep]
      simp
    | cons s0 ss =>
      show ((((s0 :: ss).map some).map fun st? =>
          (⟨projW w, some (projWE we), (some e).map projEx, st?.map projSet⟩ :
            WorkoutRow))).foldl childStep m = _
      simp only [List.map_cons, List.foldl_cons, Option.map_some']
      have hstep : childStep m
          (⟨projW w, some (projWE we), some (projEx e), some (projSet s0)⟩ : WorkoutRow)
          = m ++ [⟨projWE we, projEx e, [projSet s0]⟩] := by
        show addChild m (projWE we) (projEx e) (some (projSet s0)) = _
        rw [addChild_fresh m (projWE we) (projEx e) (some (projSet s0)) hfresh']
        rfl
      rw [hstep]
      have hrun := foldl_childStep_push_run w we e m (projEx e) hfresh' ss [projSet s0]
      simp only [Option.map_some'] at hrun
      rw [hrun]
      simp

theorem foldl_childStep_runs (s : Store) (w : Workout)
    (hE : s.exercises.Pairwise fun a b => a.id ≠ b.id) :
    ∀ (wes' : List WorkoutExercise) (m : List ExGroup),
      (∀ we ∈ wes', ∀ g ∈ m, g.workoutExercise.id ≠ we.id) →
      wes'.Pairwise (fun a b => a.id ≠ b.id) →
      (wes'.flatMap (crun s w)).foldl childStep m
        = m ++ wes'.flatMap (fun we =>
            (s.exercises.filter fun e => e.id == we.exerciseId).map
              (fun e => ⟨projWE we, projEx e,
                (sortBy SeqImpl.setRowLe
                  (s.sets.filter fun st => st.workoutExerciseId == we.id)).map projSet⟩)) := by
  intro wes'
  induction wes' with
  | nil =>
    intro m _ _
    simp
  | cons we wes' ih =>
    intro m hfresh hdist
    rw [List.pairwise_cons] at hdist
    rw [List.flatMap_cons, List.foldl_append]
    rw [foldl_childStep_run s w we m hE (hfresh we (List.mem_cons_self we wes'))]
    rw [ih _ ?_ hdist.2]
    · rw [List.flatMap_cons, List.append_assoc]
    · intro we' hwe' g hg
      rcases List.mem_append.mp hg with hgm | hge
      · exact hfresh we' (List.mem_cons_of_mem we hwe') g hgm
      · rcases List.mem_map.mp hge with ⟨e, _, rfl⟩
        show (projWE we).id ≠ we'.id
        simpa [projWE] using hdist.1 we' hwe'

theorem foldChildren_csBlock (s : Store) (w : Workout)
    (hE : s.exercises.Pairwise fun a b => a.id ≠ b.id)
    (hWE : s.workoutExercises.Pairwise fun a b => a.id ≠ b.id) :
    foldChildren (csBlock s w) = centries s w.id := by
  unfold foldChildren csBlock centries
  rcases hm : s.workoutExercises.filter fun we => we.workoutId == w.id with _ | ⟨we₀, wes₀⟩ <;>
    rw [hm]
  · rfl
  · have hdist : (sortBy weRowOrdLe (we₀ :: wes₀)).Pairwise (fun a b => a.id ≠ b.id) := by
      have h1 : (we₀ :: wes₀).Pairwise (fun a b => a.id ≠ b.id) := by
        have h2 := hWE.sublist (List.filter_sublist
          (l := s.workoutExercises) (p := fun we => we.workoutId == w.id))
        rw [hm] at h2
        exact h2
      exact ((sortBy_perm weRowOrdLe _).pairwise_iff (fun {x y} h => Ne.symm h)).mpr h1
    rw [foldl_childStep_runs s w hE _ [] (fun _ _ g hg => absurd hg (List.not_mem_nil g)) hdist]
    rw [List.nil_append]

theorem pairwise_of_forall {R : α → α → Prop} (h : ∀ a b, R a b) :
    ∀ l : List α, l.Pairwise R := by
  intro l
  induction l with
  | nil => exact List.Pairwise.nil
  | cons a l ih => exact List.pairwise_cons.mpr ⟨fun b _ => h a b, ih⟩

theorem entryOrdLe_trans : ∀ a b c : ExerciseWithSets,
    entryOrdLe a b → entryOrdLe b c → entryOrdLe a c := by
  intro a b c
  simp only [entryOrdLe, decide_eq_true_eq]
  omega

theorem entryOrdLe_total : ∀ a b : ExerciseWithSets, entryOrdLe a b || entryOrdLe b a := by
  intro a b
  simp only [entryOrdLe, Bool.or_eq_true, decide_eq_true_eq]
  omega

theorem centries_sorted (s : Store) (w : Workout) :
    (centries s w.id).Pairwise (fun a b => exOrderLe a b) := by
  unfold centries
  refine List.pairwise_flatMap.mpr ⟨?_, ?_⟩
  · intro we _
    refine List.pairwise_map.mpr (pairwise_of_forall ?_ _)
    intro a b
    simp [exOrderLe, projWE]
  · refine (pairwise_sortBy weRowOrdLe_trans weRowOrdLe_total _).imp ?_
    intro a b hab x hx y hy
    rcases List.mem_map.mp hx with ⟨ea, _, rfl⟩
    rcases List.mem_map.mp hy with ⟨eb, _, rfl⟩
    simp only [weRowOrdLe, decide_eq_true_eq] at hab
    simp [exOrderLe, projWE]
    omega

theorem centries_sets_sorted (s : Store) (w : Workout) :
    ∀ g ∈ centries s w.id, g.sets.Pairwise (fun a b => setNumLe a b) := by
  intro g hg
  unfold centries at hg
  rcases List.mem_flatMap.mp hg with ⟨we, _, hg⟩
  rcases List.mem_map.mp hg with ⟨e, _, rfl⟩
  refine List.pairwise_map.mpr ((pairwise_sortBy setRowLe_trans setRowLe_total _).imp ?_)
  intro a b hab
  simpa [setNumLe, projSet, SeqImpl.setRowLe] using hab

theorem centries_distinct_orders (s : Store) (w : Workout)
    (hE : s.exercises.Pairwise fun a b => a.id ≠ b.id)
    (hOrd : s.workoutExercises.Pairwise fun a b => a.workoutId = b.workoutId → a.order ≠ b.order) :
    (centries s w.id).Pairwise
      (fun a b => a.workoutExercise.order ≠ b.workoutExercise.order) := by
  unfold centries
  refine List.pairwise_flatMap.mpr ⟨?_, ?_⟩
  · intro we _
    rcases filter_beq_subsingleton hE we.exerciseId with h | ⟨e, _, _, h⟩ <;> rw [h] <;> simp
  · have hdist : (sortBy weRowOrdLe (s.workoutExercises.filter fun we =>
        we.workoutId == w.id)).Pairwise (fun a b => a.order ≠ b.order) :=
      ((sortBy_perm weRowOrdLe _).pairwise_iff (fun {x y} h => Ne.symm h)).mpr
        (wes_filter_distinct_orders s w hOrd)
    refine hdist.imp ?_
    intro a b hab x hx y hy
    rcases List.mem_map.mp hx with ⟨ea, _, rfl⟩
    rcases List.mem_map.mp hy with ⟨eb, _, rfl⟩
    simpa [projWE] using hab

theorem finalize_centries (s : Store) (w : Workout)
    (hE : s.exercises.Pairwise fun a b => a.id ≠ b.id)
    (hOrd : s.workoutExercises.Pairwise fun a b => a.workoutId = b.workoutId → a.order ≠ b.order) :
    finalizeGroup ⟨projW w, centries s w.id⟩
      = ⟨w.id, w.name, w.date, w.notes, SeqImpl.exercisesWithSets s w.id⟩ := by
  have h1 : (centries s w.id).map (fun e => (⟨e.workoutExercise.id, e.workoutExercise.order,
      e.exercise, sortBy setNumLe e.sets⟩ : ExerciseWithSets))
      = (centries s w.id).map (fun e => ⟨e.workoutExercise.id, e.workoutExercise.order,
        e.exercise, e.sets⟩) :=
    List.map_congr_left (fun g hg => by rw [sortBy_of_sorted (centries_sets_sorted s w g hg)])
  have hex : (sortBy exOrderLe (centries s w.id)).map
      (fun e => (⟨e.workoutExercise.id, e.workoutExercise.order, e.exercise,
        sortBy setNumLe e.sets⟩ : ExerciseWithSets))
      = SeqImpl.exercisesWithSets s w.id := by
    rw [sortBy_of_sorted (centries_sorted s w), h1]
    have hseq : SeqImpl.exercisesWithSets s w.id
        = sortBy entryOrdLe
          (((s.workoutExercises.filter fun we => we.workoutId == w.id).flatMap
              fun we => (s.exercises.filter fun e => e.id == we.exerciseId).map
                fun e => (we, e)).map
            (fun p => (⟨p.1.id, p.1.order, projEx p.2,
              (sortBy SeqImpl.setRowLe (s.sets.filter fun st =>
                st.workoutExerciseId == p.1.id)).map projSet⟩ : ExerciseWithSets))) := by
      show (sortBy SeqImpl.weOrderLe
        ((s.workoutExercises.filter fun we => we.workoutId == w.id).flatMap
          fun we => (s.exercises.filter fun e => e.id == we.exerciseId).map
            fun e => (we, e))).map _ = _
      exact map_sortBy SeqImpl.weOrderLe entryOrdLe
        (fun p => (⟨p.1.id, p.1.order, projEx p.2,
          (sortBy SeqImpl.setRowLe (s.sets.filter fun st =>
            st.workoutExerciseId == p.1.id)).map projSet⟩ : ExerciseWithSets))
        (fun a b => rfl) _
    rw [hseq]
    refine eq_of_perm_of_sorted_local entryOrdLe ?anti ?perm ?sorted₁ ?sorted₂
    case anti =>
      intro a b ha hb hab hba
      by_cases heq : a = b
      · exact heq
      · exfalso
        have hd : ((centries s w.id).map (fun e => (⟨e.workoutExercise.id,
            e.workoutExercise.order, e.exercise, e.sets⟩ : ExerciseWithSets))).Pairwise
            (fun x y => x.order ≠ y.order) := by
          refine List.pairwise_map.mpr ((centries_distinct_orders s w hE hOrd).imp ?_)
          intro x y h
          simpa using h
        have := List.Pairwise.forall (fun {x y} h => Ne.symm h) hd ha hb heq
        simp only [entryOrdLe, decide_eq_true_eq] at hab hba
        omega
    case perm =>
      have h2 : (centries s w.id).map (fun e => (⟨e.workoutExercise.id,
          e.workoutExercise.order, e.exercise, e.sets⟩ : ExerciseWithSets))
          = (sortBy weRowOrdLe (s.workoutExercises.filter fun we =>
              we.workoutId == w.id)).flatMap (fun we =>
            (s.exercises.filter fun e => e.id == we.exerciseId).map
              (fun e => (⟨we.id, we.order, projEx e,
                (sortBy SeqImpl.setRowLe (s.sets.filter fun st =>
                  st.workoutExerciseId == we.id)).map projSet⟩ : ExerciseWithSets))) := by
        unfold centries
        rw [List.map_flatMap]
        simp only [List.map_map]
        rfl
      have h3 : (((s.workoutExercises.filter fun we => we.workoutId == w.id).flatMap
            fun we => (s.exercises.filter fun e => e.id == we.exerciseId).map
              fun e => (we, e)).map (fun p => (⟨p.1.id, p.1.order, projEx p.2,
            (sortBy SeqImpl.setRowLe (s.sets.filter fun st =>
              st.workoutExerciseId == p.1.id)).map projSet⟩ : ExerciseWithSets)))
          = ((s.workoutExercises.filter fun we => we.workoutId == w.id).flatMap
            (fun we => (s.exercises.filter fun e => e.id == we.exerciseId).map
              (fun e => (⟨we.id, we.order, projEx e,
                (sortBy SeqImpl.setRowLe (s.sets.filter fun st =>
                  st.workoutExerciseId == we.id)).map projSet⟩ : ExerciseWithSets)))) := by
        rw [List.map_flatMap]
        simp only [List.map_map]
        rfl
      rw [h2, h3]
      refine List.Perm.trans (List.Perm.flatMap_right _ (sortBy_perm weRowOrdLe _))
        (sortBy_perm entryOrdLe _).symm
    case sorted₁ =>
      refine List.pairwise_map.mpr ((centries_sorted s w).imp ?_)
      intro a b h
      simpa [entryOrdLe, exOrderLe] using h
    case sorted₂ => exact pairwise_sortBy entryOrdLe_trans entryOrdLe_total _
  show (⟨(projW w).id, (projW w).name, (projW w).date, (projW w).notes,
      (sortBy exOrderLe (centries s w.id)).map fun e =>
        ⟨e.workoutExercise.id, e.workoutExercise.order, e.exercise,
          sortBy setNumLe e.sets⟩⟩ : WorkoutWithExercises)
    = ⟨w.id, w.name, w.date, w.notes, SeqImpl.exercisesWithSets s w.id⟩
  rw [hex]
  rfl

theorem wide_getWorkouts_canonical (s : Store) (u : String) (d : Nat)
    (hW : s.workouts.Pairwise fun a b => a.id ≠ b.id)
    (hWE : s.workoutExercises.Pairwise fun a b => a.id ≠ b.id)
    (hE : s.exercises.Pairwise fun a b => a.id ≠ b.id)
    (hOrd : s.workoutExercises.Pairwise fun a b => a.workoutId = b.workoutId → a.order ≠ b.order)
    (hSN : s.sets.Pairwise fun a b =>
      a.workoutExerciseId = b.workoutExerciseId → a.setNumber ≠ b.setNumber) :
    WideImpl.getWorkoutsByDate s u d
      = (sortBy workoutIdLe (s.workouts.filter fun w => w.userId == u && w.date == d)).map
          (fun w => ⟨w.id, w.name, w.date, w.notes, SeqImpl.exercisesWithSets s w.id⟩) := by
  have hWf : (s.workouts.filter fun w => w.userId == u && w.date == d).Pairwise
      (fun a b => a.id ≠ b.id) := hW.sublist (List.filter_sublist _)
  have hW'dist : (sortBy workoutIdLe (s.workouts.filter fun w =>
      w.userId == u && w.date == d)).Pairwise (fun a b => a.id ≠ b.id) :=
    ((sortBy_perm workoutIdLe _).pairwise_iff (fun {x y} h => Ne.symm h)).mpr hWf
  unfold WideImpl.getWorkoutsByDate transformToWorkoutWithExercises
  rw [rowsFor_partition s u d hW]
  rw [List.flatMap_congr (fun w hw =>
    rowsFor_filter_eq_csBlock s u d w hW hE hOrd hSN (mem_sortBy.mp hw))]
  rw [foldl_addRow_blocks _ (csBlock s) (fun w _ => csBlock_workout s w)
    (fun w _ => csBlock_ne_nil s w) hW'dist]
  rw [List.map_map]
  apply List.map_congr_left
  intro w _
  show finalizeGroup ⟨projW w, foldChildren (csBlock s w)⟩ = _
  rw [foldChildren_csBlock s w hE hWE]
  exact finalize_centries s w hE hOrd

theorem seq_getWorkouts_eq_map (s : Store) (u : String) (d : Nat) :
    SeqImpl.getWorkoutsByDate s u d
      = (s.workouts.filter fun w => w.userId == u && w.date == d).map
          (fun w => ⟨w.id, w.name, w.date, w.notes, SeqImpl.exercisesWithSets s w.id⟩) := by
  unfold SeqImpl.getWorkoutsByDate
  dsimp only
  split
  next h => rw [List.isEmpty_iff.mp h]; rfl
  next h => rfl

/-- C10 (amended): under the schema's primary-key uniqueness (workout,
workout-exercise and exercise ids) and the spec's ordering-key
uniqueness (`order` unique within a workout, `setNumber` unique within a
workout-exercise), the wide-left-join implementation returns exactly the
sequential per-workout results with the workouts sorted ascending by id;
hence the two implementations return permutations of each other, equal
lists whenever the workouts table is stored in ascending-id order. -/
theorem wide_seq_refinement (s : Store) (u : String) (d : Nat)
    (hW : s.workouts.Pairwise fun a b => a.id ≠ b.id)
    (hWE : s.workoutExercises.Pairwise fun a b => a.id ≠ b.id)
    (hE : s.exercises.Pairwise fun a b => a.id ≠ b.id)
    (hOrd : s.workoutExercises.Pairwise fun a b => a.workoutId = b.workoutId → a.order ≠ b.order)
    (hSN : s.sets.Pairwise fun a b =>
      a.workoutExerciseId = b.workoutExerciseId → a.setNumber ≠ b.setNumber) :
    WideImpl.getWorkoutsByDate s u d
      = (sortBy workoutIdLe (s.workouts.filter fun w => w.userId == u && w.date == d)).map
          (fun w => ⟨w.id, w.name, w.date, w.notes, SeqImpl.exercisesWithSets s w.id⟩)
    ∧ (WideImpl.getWorkoutsByDate s u d).Perm (SeqImpl.getWorkoutsByDate s u d) := by
  refine ⟨wide_getWorkouts_canonical s u d hW hWE hE hOrd hSN, ?_⟩
  rw [wide_getWorkouts_canonical s u d hW hWE hE hOrd hSN, seq_getWorkouts_eq_map]
  exact (sortBy_perm workoutIdLe _).map _

/-- C10 counterexample: with the workouts table storing ids [2, 1], the
wide implementation returns them sorted [1, 2] while the sequential one
returns store order [2, 1], so the two result lists are not equal. -/
theorem wide_seq_order_counterexample :
    WideImpl.getWorkoutsByDate
        ⟨[⟨2, "u", none, 100, none⟩, ⟨1, "u", none, 100, none⟩], [], [], []⟩ "u" 100
      ≠ SeqImpl.getWorkoutsByDate
        ⟨[⟨2, "u", none, 100, none⟩, ⟨1, "u", none, 100, none⟩], [], [], []⟩ "u" 100 := by
  decide

/-- C10 witness: on a concrete store the wide result equals the
id-sorted sequential results and is a permutation of the sequential
result. -/
theorem wide_seq_refinement_witness :
    (([⟨2, "u", none, 100, none⟩, ⟨1, "u", none, 100, none⟩] : List Workout).Pairwise
        (fun a b => a.id ≠ b.id) ∧
      ([⟨20, 1, 10, 2⟩, ⟨21, 1, 11, 1⟩] : List WorkoutExercise).Pairwise
        (fun a b => a.id ≠ b.id) ∧
      ([⟨10, "squat", none, none⟩, ⟨11, "bench", none, none⟩] : List Exercise).Pairwise
        (fun a b => a.id ≠ b.id) ∧
      ([⟨20, 1, 10, 2⟩, ⟨21, 1, 11, 1⟩] : List WorkoutExercise).Pairwise
        (fun a b => a.workoutId = b.workoutId → a.order ≠ b.order) ∧
      ([⟨30, 20, 3, none, 5, none⟩, ⟨31, 20, 1, none, 8, none⟩,
          ⟨32, 20, 2, none, 6, none⟩] : List SetRow).Pairwise
        (fun a b => a.workoutExerciseId = b.workoutExerciseId → a.setNumber ≠ b.setNumber)) ∧
    (WideImpl.getWorkoutsByDate ⟨[⟨2, "u", none, 100, none⟩, ⟨1, "u", none, 100, none⟩],
          [⟨20, 1, 10, 2⟩, ⟨21, 1, 11, 1⟩],
          [⟨10, "squat", none, none⟩, ⟨11, "bench", none, none⟩],
          [⟨30, 20, 3, none, 5, none⟩, ⟨31, 20, 1, none, 8, none⟩,
            ⟨32, 20, 2, none, 6, none⟩]⟩ "u" 100
        = (sortBy workoutIdLe (([⟨2, "u", none, 100, none⟩, ⟨1, "u", none, 100, none⟩] :
            List Workout).filter fun w => w.userId == "u" && w.date == 100)).map
            (fun w => ⟨w.id, w.name, w.date, w.notes,
              SeqImpl.exercisesWithSets ⟨[⟨2, "u", none, 100, none⟩, ⟨1, "u", none, 100, none⟩],
                [⟨20, 1, 10, 2⟩, ⟨21, 1, 11, 1⟩],
                [⟨10, "squat", none, none⟩, ⟨11, "bench", none, none⟩],
                [⟨30, 20, 3, none, 5, none⟩, ⟨31, 20, 1, none, 8, none⟩,
                  ⟨32, 20, 2, none, 6, none⟩]⟩ w.id⟩)
      ∧ (WideImpl.getWorkoutsByDate ⟨[⟨2, "u", none, 100, none⟩, ⟨1, "u", none, 100, none⟩],
          [⟨20, 1, 10, 2⟩, ⟨21, 1, 11, 1⟩],
          [⟨10, "squat", none, none⟩, ⟨11, "bench", none, none⟩],
          [⟨30, 20, 3, none, 5, none⟩, ⟨31, 20, 1, none, 8, none⟩,
            ⟨32, 20, 2, none, 6, none⟩]⟩ "u" 100).Perm
        (SeqImpl.getWorkoutsByDate ⟨[⟨2, "u", none, 100, none⟩, ⟨1, "u", none, 100, none⟩],
          [⟨20, 1, 10, 2⟩, ⟨21, 1, 11, 1⟩],
          [⟨10, "squat", none, none⟩, ⟨11, "bench", none, none⟩],
          [⟨30, 20, 3, none, 5, none⟩, ⟨31, 20, 1, none, 8, none⟩,
            ⟨32, 20, 2, none, 6, none⟩]⟩ "u" 100)) :=
  ⟨⟨by decide, by decide, by decide, by decide, by decide⟩,
    wide_seq_refinement ⟨[⟨2, "u", none, 100, none⟩, ⟨1, "u", none, 100, none⟩],
      [⟨20, 1, 10, 2⟩, ⟨21, 1, 11, 1⟩],
      [⟨10, "squat", none, none⟩, ⟨11, "bench", none, none⟩],
      [⟨30, 20, 3, none, 5, none⟩, ⟨31, 20, 1, none, 8, none⟩,
        ⟨32, 20, 2, none, 6, none⟩]⟩ "u" 100
      (by decide) (by decide) (by decide) (by decide) (by decide)⟩
